import Mathlib

/-!
Verification of the AgentMind reasoning-chain execution and answer-reconciliation
engine against its natural-language specification.

The Python sources under src/backend are shallowly embedded here:
  - Python `int`/`float` values are modelled by Int / Rat (exact arithmetic;
    the source never relies on float rounding for the properties considered,
    and NaN/infinity never arise in the embedded fragments).
  - Python strings are Lean Strings; `x in y`, `.lower()`, `.strip()`,
    `.split()`, `.startswith` are embedded by pyIn, toLower, trim, pyWords,
    startsWith with Python semantics.
  - The handful of regular expressions used by the solvers are embedded by
    bespoke scanners reproducing `re.findall` / `re.search` left-to-right,
    non-overlapping semantics for those exact patterns.
  - The advisory Mistral oracle is absent (the deterministic-solver-pool
    setting of the specification): every `use_mistral` branch is the
    `False` branch, as when no API client is available.
  - Wall-clock fields (`timestamp`, `execution_time`) are not modelled.
-/

set_option allowUnsafeReducibility true
attribute [semireducible] Rat.mul Rat.add Rat.sub Rat.inv Rat.ofScientific

/-! ## Python string primitives

Core String functions such as `String.toLower` or `String.trim` recurse on
byte positions with well-founded measures and do not evaluate inside the
kernel, so the Python string methods are embedded by structurally recursive
equivalents over the character list. -/

/-- Python `s.lower()` (ASCII, as in the source's inputs). -/
def String.pyLower (s : String) : String := ⟨s.data.map Char.toLower⟩

/-- Python `s.upper()`. -/
def String.pyUpper (s : String) : String := ⟨s.data.map Char.toUpper⟩

/-- Python `s.strip()`: drop whitespace from both ends. -/
def String.pyTrim (s : String) : String :=
  ⟨((s.data.dropWhile Char.isWhitespace).reverse.dropWhile Char.isWhitespace).reverse⟩

/-- Python `s.startswith(pre)`. -/
def String.pyStartsWith (s pre : String) : Bool := pre.data.isPrefixOf s.data

/-- Python `s.replace(",", "")`. -/
def String.pyRemComma (s : String) : String := ⟨s.data.filter (fun c => c ≠ ',')⟩

/-- Python `s.replace(" ", "_")`. -/
def String.pyUnderscore (s : String) : String :=
  ⟨s.data.map (fun c => if c = ' ' then '_' else c)⟩

namespace AgentMind

/-- Python `sep.join(xs)`. -/
def pyIntercalate (sep : String) (xs : List String) : String :=
  ⟨List.intercalate sep.data (xs.map String.data)⟩

/-- Python `s.split(".")`: split at every period, keeping empty pieces. -/
def splitDotAux : List Char → List Char → List String
  | [], acc => [⟨acc.reverse⟩]
  | c :: cs, acc =>
    if c = '.' then ⟨acc.reverse⟩ :: splitDotAux cs [] else splitDotAux cs (c :: acc)

/-- Python `s.split(".")`. -/
def pySplitDot (s : String) : List String := splitDotAux s.data []

/-- Python `sub in hay` (substring containment). -/
def pyIn (sub hay : String) : Bool :=
  (List.range (hay.data.length + 1)).any (fun i => sub.data.isPrefixOf (hay.data.drop i))

/-- Stable insertion sort with a boolean "comes no later than" relation
(mirrors the stability of Python `list.sort` / `sorted`). -/
def insSorted {α : Type} (le : α → α → Bool) (x : α) : List α → List α
  | [] => [x]
  | y :: ys => if le x y then x :: y :: ys else y :: insSorted le x ys

/-- Stable sort driver. -/
def stableSort {α : Type} (le : α → α → Bool) : List α → List α
  | [] => []
  | x :: xs => insSorted le x (stableSort le xs)

/-- Word accumulator for pyWords (structural scan over the characters). -/
def splitWsAux : List Char → List Char → List String
  | [], acc => if acc = [] then [] else [⟨acc.reverse⟩]
  | c :: cs, acc =>
    if c.isWhitespace then
      if acc = [] then splitWsAux cs [] else ⟨acc.reverse⟩ :: splitWsAux cs []
    else splitWsAux cs (c :: acc)

/-- Python `s.split()` with no argument: split on whitespace runs, dropping empties. -/
def pyWords (s : String) : List String := splitWsAux s.data []

/-- Python truthiness of an optional string (`None` and `""` are falsy). -/
def strTruthy : Option String → Bool
  | none => false
  | some s => s ≠ ""

/-- Single-quote character, used to render Python list literals. -/
def sq : String := String.singleton (Char.ofNat 39)

/-- Python `str(list_of_str)`, e.g. `['12', '6']`. -/
def pyStrListRepr (xs : List String) : String :=
  "[" ++ pyIntercalate ", " (xs.map (fun s => sq ++ s ++ sq)) ++ "]"

/-! ## Decimal rendering of numbers (Python `str` on int / float) -/

/-- Digit characters of a natural number, most significant first (fuel-driven). -/
def natDigitsAux : ℕ → ℕ → List Char
  | 0, _ => []
  | fuel + 1, n =>
    if n < 10 then [Nat.digitChar n]
    else natDigitsAux fuel (n / 10) ++ [Nat.digitChar (n % 10)]

/-- Python `str` of a natural number. -/
def natStr (n : ℕ) : String := ⟨natDigitsAux (n + 1) n⟩

/-- Python `str` of an int. -/
def intStr (i : ℤ) : String :=
  if i < 0 then "-" ++ natStr i.natAbs else natStr i.natAbs

/-- Smallest exponent `k ≤ 30` with `q * 10^k` integral, if any. -/
def decExp (q : ℚ) : Option ℕ :=
  (List.range 31).find? (fun k => (q * (10 : ℚ) ^ k).den = 1)

/-- Left-pad a digit list with zeros to the given length. -/
def padZero (k : ℕ) (ds : List Char) : List Char :=
  List.replicate (k - ds.length) '0' ++ ds

/-- Python `str` of a float, modelled on exact rationals: integral values print
with a trailing `.0`, terminating decimals print exactly; (unreachable in the
embedded code paths) non-terminating decimals fall back to a fraction form. -/
def floatStr (q : ℚ) : String :=
  let sgn : String := if q < 0 then "-" else ""
  let a : ℚ := |q|
  if a.den = 1 then sgn ++ natStr a.num.natAbs ++ ".0"
  else
    match decExp a with
    | some k =>
        let scaled : ℕ := (a * (10 : ℚ) ^ k).num.natAbs
        let ip : ℕ := scaled / 10 ^ k
        let fp : ℕ := scaled % 10 ^ k
        sgn ++ natStr ip ++ "." ++ ⟨padZero k (natDigitsAux (fp + 1) fp)⟩
    | none => sgn ++ natStr a.num.natAbs ++ "/" ++ natStr a.den

/-- Python `int(x)` on a float: truncation toward zero. -/
def pyTrunc (q : ℚ) : ℤ :=
  if 0 ≤ q then ⌊q⌋ else -⌊-q⌋

/-- Python `round(x, 2)` (round-half-even at two decimals, on exact rationals). -/
def pyRound2 (q : ℚ) : ℚ :=
  let y : ℚ := q * 100
  let f : ℤ := ⌊y⌋
  let r : ℚ := y - f
  if r < 1/2 then (f : ℚ) / 100
  else if 1/2 < r then ((f : ℚ) + 1) / 100
  else if f % 2 = 0 then (f : ℚ) / 100 else ((f : ℚ) + 1) / 100

/-! ## Dynamic values (Python `tool_output` payloads) -/

/-- Untyped payload of a step's `tool_output` / `tool_input`: Python int, float
or str (the only types the source stores there). -/
inductive PyVal where
  | vInt (n : ℤ)
  | vFloat (q : ℚ)
  | vStr (s : String)
deriving DecidableEq, Repr

/-- Python `str()` of a payload. -/
def pyValStr : PyVal → String
  | .vInt n => intStr n
  | .vFloat q => floatStr q
  | .vStr s => s

/-- Python truthiness of a payload (`0`, `0.0` and `""` are falsy). -/
def pyValTruthy : PyVal → Bool
  | .vInt n => n ≠ 0
  | .vFloat q => q ≠ 0
  | .vStr s => s ≠ ""

/-- Python truthiness of an optional payload. -/
def valTruthy : Option PyVal → Bool
  | none => false
  | some v => pyValTruthy v

/-! ## Regex scanners

Each regular expression used by the embedded sources is reproduced by a
dedicated scanner.  A scanner is a matcher `List Char → Option (group × rest)`
that succeeds only when the pattern matches at the head of the input and then
consumes the whole match; `scanAll` drives it across the input exactly as
`re.findall` does (left to right, non-overlapping, advancing one character
after a failed position). -/

/-- Longest digit run at the head, with the rest. -/
def spanDigits (cs : List Char) : List Char × List Char :=
  (cs.takeWhile Char.isDigit, cs.dropWhile Char.isDigit)

/-- Whitespace skipping, i.e. a greedy regex fragment of zero or more spaces. -/
def skipWs (cs : List Char) : List Char := cs.dropWhile Char.isWhitespace

/-- Whitespace skipping requiring at least one whitespace character. -/
def skipWs1 : List Char → Option (List Char)
  | c :: cs => if c.isWhitespace then some (cs.dropWhile Char.isWhitespace) else none
  | [] => none

/-- Literal matching: consume the given characters or fail. -/
def stripLit (lit cs : List Char) : Option (List Char) :=
  if lit.isPrefixOf cs then some (cs.drop lit.length) else none

/-- Python word character (regex boundary checks). -/
def isWordChar (c : Char) : Bool := c.isAlphanum || c = '_'

/-- Word boundary after a match: end of input or a non-word character. -/
def atBoundary : List Char → Bool
  | [] => true
  | c :: _ => !isWordChar c

/-- Matcher for the token regex -?[0-9]+.?[0-9]*  (the loose number pattern the
source uses to pull numbers out of free text; the dot is consumed even with no
digits after it, exactly as the regex does). -/
def mNumLoose : List Char → Option (List Char × List Char)
  | [] => none
  | c :: cs =>
    if c = '-' then
      match spanDigits cs with
      | ([], _) => none
      | (ds, rest) =>
        match rest with
        | '.' :: rest2 =>
          let (ds2, rest3) := spanDigits rest2
          some ('-' :: ds ++ '.' :: ds2, rest3)
        | _ => some ('-' :: ds, rest)
    else if c.isDigit then
      let (ds, rest) := spanDigits (c :: cs)
      match rest with
      | '.' :: rest2 =>
        let (ds2, rest3) := spanDigits rest2
        some (ds ++ '.' :: ds2, rest3)
      | _ => some (ds, rest)
    else none

/-- Matcher for [0-9]+ with an optional fractional part requiring a digit after
the dot (regex fragment d+(.d+)? ). -/
def mNumFrac (cs : List Char) : Option (List Char × List Char) :=
  match spanDigits cs with
  | ([], _) => none
  | (ds, rest) =>
    match rest with
    | '.' :: rest2 =>
      match spanDigits rest2 with
      | ([], _) => some (ds, rest)
      | (ds2, rest3) => some (ds ++ '.' :: ds2, rest3)
    | _ => some (ds, rest)

/-- Matcher for a bare digit run (regex fragment d+). -/
def mNat (cs : List Char) : Option (List Char × List Char) :=
  match spanDigits cs with
  | ([], _) => none
  | (ds, rest) => some (ds, rest)

/-- Run a matcher in `re.findall` style: fuel-driven left-to-right scan, restart
one character later on failure, continue after each whole match. -/
def scanAllAux {α : Type} (m : List Char → Option (α × List Char)) :
    ℕ → List Char → List α
  | 0, _ => []
  | _ + 1, [] => []
  | fuel + 1, c :: cs =>
    match m (c :: cs) with
    | some (a, rest) => a :: scanAllAux m fuel rest
    | none => scanAllAux m fuel cs

/-- Findall over a string. -/
def scanAll {α : Type} (m : List Char → Option (α × List Char)) (s : String) : List α :=
  scanAllAux m s.data.length s.data

/-- Leftmost match in `re.search` style: first position where the matcher fires. -/
def searchFirstAux {α : Type} (m : List Char → Option (α × List Char)) :
    ℕ → List Char → Option α
  | 0, _ => none
  | _ + 1, [] => none
  | fuel + 1, c :: cs =>
    match m (c :: cs) with
    | some (a, _) => some a
    | none => searchFirstAux m fuel cs

/-- Search over a string. -/
def searchFirst {α : Type} (m : List Char → Option (α × List Char)) (s : String) : Option α :=
  searchFirstAux m s.data.length s.data

/-- Lazy gap: try the tail matcher at every offset, consuming only non-newline
characters, exactly like a lazy dot-star between two regex fragments. -/
def lazyGap {α : Type} (tail : List Char → Option α) : ℕ → List Char → Option α
  | 0, cs => tail cs
  | fuel + 1, cs =>
    match tail cs with
    | some a => some a
    | none =>
      match cs with
      | [] => none
      | c :: cs2 => if c = '\n' then none else lazyGap tail fuel cs2

/-- Parse one of the source's number tokens (optional sign, digits, optional
dot, digits) as an exact rational, i.e. Python `float(token)`. -/
def pyFloatTok (t : String) : ℚ :=
  let (sgn, body) :=
    match t.data with
    | '-' :: rest => ((-1 : ℚ), rest)
    | cs => ((1 : ℚ), cs)
  let (ds, rest) := spanDigits body
  let ip : ℕ := ds.foldl (fun acc c => acc * 10 + (c.toNat - 48)) 0
  match rest with
  | '.' :: rest2 =>
    let (ds2, _) := spanDigits rest2
    let fp : ℕ := ds2.foldl (fun acc c => acc * 10 + (c.toNat - 48)) 0
    sgn * ((ip : ℚ) + (fp : ℚ) / (10 : ℚ) ^ ds2.length)
  | _ => sgn * (ip : ℚ)

/-- Python `int(token)` for a bare digit token. -/
def pyNatTok (t : String) : ℕ :=
  t.data.foldl (fun acc c => acc * 10 + (c.toNat - 48)) 0

/-! ## EnhancedSolvers (src/backend/tools/enhanced_solvers.py) -/

/-- Matcher for the work-rate time pattern: number, optional spaces, literal
`hour` (no boundary), group = the number token. -/
def mHourTok (cs : List Char) : Option (List Char × List Char) :=
  (mNumFrac cs).bind fun p =>
    (stripLit "hour".data (skipWs p.2)).map fun rest => (p.1, rest)

/-- EnhancedSolvers.solve_work_rate_problem. -/
def solve_work_rate_problem (problem : String) : Option String :=
  let pl := problem.pyLower
  if !(["hour", "together", "work", "complete"].any (fun w => pyIn w pl)) then none
  else
    let times := (scanAll mHourTok pl).map (fun t => pyFloatTok ⟨t⟩)
    if times.length ≥ 2 then
      if times.any (fun t => t = 0) then none   -- ZeroDivisionError is caught, yielding None
      else
        let combined_rate : ℚ := (times.map (fun t => 1 / t)).sum
        let combined_time : ℚ := 1 / combined_rate
        let hours : ℤ := pyTrunc combined_time
        let minutes : ℤ := pyTrunc ((combined_time - hours) * 60)
        if minutes = 0 then some (intStr hours ++ " hours")
        else if hours = 0 then some (intStr minutes ++ " minutes")
        else some (intStr hours ++ " hours and " ++ intStr minutes ++ " minutes")
    else none

/-- Tail of the production pattern after the lazy gap: number, spaces, percent
sign, spaces, literal `error`; group = the number token. -/
def mProdTail (cs : List Char) : Option (List Char × List Char) :=
  (mNumFrac cs).bind fun p =>
    (stripLit "%".data (skipWs p.2)).bind fun r3 =>
      (stripLit "error".data (skipWs r3)).map fun r4 => (p.1, r4)

/-- Matcher for the machine-production pattern
`(d+)\s*product.*?(d+(.d+)?)\s*%\s*error` (lazy middle). -/
def mProduction (cs : List Char) : Option ((List Char × List Char) × List Char) :=
  (mNat cs).bind fun p =>
    (stripLit "product".data (skipWs p.2)).bind fun r1 =>
      (lazyGap mProdTail r1.length r1).map fun q => ((p.1, q.1), q.2)

/-- EnhancedSolvers.solve_machine_production_problem. -/
def solve_machine_production_problem (problem : String) : Option String :=
  let pl := problem.pyLower
  if !(["machine", "product", "error"].all (fun w => pyIn w pl)) then none
  else
    let ms := scanAll mProduction pl
    if ms = [] then none
    else
      let best := ms.foldl
        (fun (acc : ℚ × Option Char × ℕ) (m : List Char × List Char) =>
          let products : ℕ := pyNatTok ⟨m.1⟩
          let errPct : ℚ := pyFloatTok ⟨m.2⟩
          let errFree : ℚ := (products : ℚ) * (1 - errPct / 100)
          if acc.1 < errFree then (errFree, some (Char.ofNat (65 + acc.2.2)), acc.2.2 + 1)
          else (acc.1, acc.2.1, acc.2.2 + 1))
        ((0 : ℚ), none, 0)
      match best.2.1 with
      | some c => some ("Machine " ++ String.singleton c)
      | none => none

/-- EnhancedSolvers.solve_switch_machine_problem. -/
def solve_switch_machine_problem (problem : String) : Option String :=
  let pl := problem.pyLower
  if !(["switch", "machine"].all (fun w => pyIn w pl)) then none
  else if pyIn "enter" pl && pyIn "room" pl then
    if pyIn "three" pl then
      some "Flip Switch 1, wait, flip it back, flip Switch 2, and then enter the room."
    else none
  else none

/-! ## ConstraintSolver (src/backend/tools/constraint_solver.py) -/

/-- Matcher for number-with-unit and a word boundary; the unit alternatives are
tried in the regex's order and the whole match is retried without the
fractional part when the boundary fails (regex backtracking). -/
def mNumUnitBd (units : List String) (cs : List Char) : Option (List Char × List Char) :=
  match spanDigits cs with
  | ([], _) => none
  | (ds, rest) =>
    let cands : List (List Char × List Char) :=
      match rest with
      | '.' :: rest2 =>
        match spanDigits rest2 with
        | ([], _) => [(ds, rest)]
        | (ds2, rest3) => [(ds ++ '.' :: ds2, rest3), (ds, rest)]
      | _ => [(ds, rest)]
    cands.findSome? fun cand =>
      let r := skipWs cand.2
      units.findSome? fun u =>
        (stripLit u.data r).bind fun r2 =>
          if atBoundary r2 then some (cand.1, r2) else none

/-- Matcher for `(d+(.d+)?)\s*(hours?|minutes?)` returning the number token and
the matched unit text (greedy optional plural). -/
def mNumHourMin (cs : List Char) : Option ((List Char × List Char) × List Char) :=
  (mNumFrac cs).bind fun p =>
    let r := skipWs p.2
    match stripLit "hour".data r with
    | some r2 =>
      match r2 with
      | 's' :: r3 => some ((p.1, "hours".data), r3)
      | _ => some ((p.1, "hour".data), r2)
    | none =>
      match stripLit "minute".data r with
      | some r2 =>
        match r2 with
        | 's' :: r3 => some ((p.1, "minutes".data), r3)
        | _ => some ((p.1, "minute".data), r2)
      | none => none

/-- Matcher for `machine\s+[A-Z]\s+(takes|needs|requires)\s+(d+(.d+)?)`
(case-sensitive, run over lowered text, so the `[A-Z]` class never fires). -/
def mMachineTakes (cs : List Char) : Option (List Char × List Char) :=
  (stripLit "machine".data cs).bind fun r1 =>
    (skipWs1 r1).bind fun r2 =>
      match r2 with
      | c :: r3 =>
        if 'A' ≤ c && c ≤ 'Z' then
          (skipWs1 r3).bind fun r4 =>
            (["takes", "needs", "requires"].findSome? fun w => stripLit w.data r4).bind
              fun r5 => (skipWs1 r5).bind fun r6 => mNumFrac r6
        else none
      | [] => none

/-- ConstraintSolver.solve_machine_time_combined. -/
def solve_machine_time_combined (problem : String) : Option ℚ :=
  let pl := problem.pyLower
  if !(["machine", "together", "work", "complete", "finish"].any (fun w => pyIn w pl)) then
    none
  else
    let t1 := (scanAll (mNumUnitBd ["hour", "hr", "h"]) pl).map (fun t => pyFloatTok ⟨t⟩)
    let t2 := (scanAll (mNumUnitBd ["minute", "min", "m"]) pl).map (fun t => pyFloatTok ⟨t⟩)
    let t3 := (scanAll mMachineTakes pl).map (fun t => pyFloatTok ⟨t⟩)
    let t4 := (scanAll (fun cs => (mNumHourMin cs).map fun q => (q.1.1, q.2)) pl).map
      (fun t => pyFloatTok ⟨t⟩)
    let times0 := t1 ++ t2 ++ t3 ++ t4
    if times0.length < 2 then none
    else
      let times1 := stableSort (fun a b => a ≤ b) times0.dedup
      let times :=
        if pyIn "minute" pl && times1.all (fun t => t < 10) then times1.map (fun t => t / 60)
        else times1
      if times.any (fun t => t = 0) then none   -- ZeroDivisionError caught: None
      else some (pyRound2 (1 / (times.map (fun t => 1 / t)).sum))

/-- ConstraintSolver.calculate_worst_case_presses. -/
def calculate_worst_case_presses (problem : String) : Option ℕ :=
  let pl := problem.pyLower
  if !(pyIn "button" pl) || !(pyIn "machine" pl) then none
  else if pyIn "three" pl && pyIn "random" pl then some 6
  else if pyIn "two" pl then some 3
  else none

/-- Tail of the pipeline pattern after the lazy gap: digits, spaces, `minute`
or `min`; group = the digits. -/
def mPipeTail (cs : List Char) : Option (List Char × List Char) :=
  (mNat cs).bind fun p =>
    let r := skipWs p.2
    (["minute", "min"].findSome? fun u => stripLit u.data r).map fun r2 => (p.1, r2)

/-- Lazy gap over characters other than a period (regex `[^.]*?`). -/
def lazyGapNoDot {α : Type} (tail : List Char → Option α) : ℕ → List Char → Option α
  | 0, cs => tail cs
  | fuel + 1, cs =>
    match tail cs with
    | some a => some a
    | none =>
      match cs with
      | [] => none
      | c :: cs2 => if c = '.' then none else lazyGapNoDot tail fuel cs2

/-- Matcher for the pipeline pattern (IGNORECASE, run on lowered text):
`machine\s+([A-Z])\s+(polishes|engraves|performs|takes|processes)[^.]*?(d+)\s*(minute|min)`. -/
def mPipeline (cs : List Char) : Option ((Char × List Char) × List Char) :=
  (stripLit "machine".data cs).bind fun r1 =>
    (skipWs1 r1).bind fun r2 =>
      match r2 with
      | c :: r3 =>
        if c.isAlpha then
          (skipWs1 r3).bind fun r4 =>
            (["polishes", "engraves", "performs", "takes", "processes"].findSome?
                (fun w => stripLit w.data r4)).bind fun r5 =>
              (lazyGapNoDot mPipeTail r5.length r5).map fun q => ((c, q.1), q.2)
        else none
      | [] => none

/-- Ascending comparison on char lists (Python string ordering on the
single-letter machine names used here). -/
def charListLe : List Char → List Char → Bool
  | [], _ => true
  | _ :: _, [] => false
  | a :: as_, b :: bs =>
    if a.toNat < b.toNat then true
    else if b.toNat < a.toNat then false
    else charListLe as_ bs

/-- Insert into a Python-dict-like association list: overwrite in place on a
duplicate key, append otherwise (insertion order preserved). -/
def dictUpsert {α : Type} (k : String) (v : α) : List (String × α) → List (String × α)
  | [] => [(k, v)]
  | (k0, v0) :: rest =>
    if k0 = k then (k0, v) :: rest else (k0, v0) :: dictUpsert k v rest

/-- ConstraintSolver.solve_pipeline_scheduling. -/
def solve_pipeline_scheduling (problem : String) : Option String :=
  let pl := problem.pyLower
  if !(pyIn "machine" pl) || !(pyIn "order" pl) then none
  else
    let ms := scanAll mPipeline pl
    let machines : List (String × ℕ) := ms.foldl
      (fun acc (m : Char × List Char) =>
        dictUpsert (String.singleton m.1).pyUpper (pyNatTok ⟨m.2⟩) acc) []
    if machines = [] then none
    else
      let order0 : List (ℕ × String) :=
        (if pyIn "polish" pl then
          machines.filterMap (fun m =>
            if pyIn ("machine " ++ m.1.pyLower ++ " polish") pl then some (0, m.1) else none)
        else []) ++
        (if pyIn "engrave" pl || pyIn "engraves" pl then
          machines.filterMap (fun m =>
            if pyIn ("machine " ++ m.1.pyLower ++ " engrave") pl then some (1, m.1) else none)
        else []) ++
        (if pyIn "quality" pl || pyIn "check" pl then
          machines.filterMap (fun m =>
            if pyIn ("machine " ++ m.1.pyLower) pl && pyIn "quality" pl then some (2, m.1)
            else none)
        else [])
    if order0 ≠ [] then
      let sorted := stableSort (fun a b =>
        a.1 < b.1 || (a.1 = b.1 && charListLe a.2.data b.2.data)) order0
      some (pyIntercalate " -> " (sorted.map (fun p => p.2)))
    else if machines.length ≥ 2 then
      let keys := stableSort (fun a b => charListLe a.data b.data) (machines.map (fun m => m.1))
      some (pyIntercalate " -> " keys)
    else none

/-- Tail of the gear pattern after the lazy gap: digits, spaces, one of
`teeth|tooth|rotation|turn`. -/
def mGearTail (cs : List Char) : Option (List Char × List Char) :=
  (mNat cs).bind fun p =>
    let r := skipWs p.2
    (["teeth", "tooth", "rotation", "turn"].findSome? fun u => stripLit u.data r).map
      fun r2 => (p.1, r2)

/-- Matcher for the gear pattern (IGNORECASE on lowered text):
`gear\s+([A-Z])[^.]*?(d+)\s*(teeth|tooth|rotation|turn)`. -/
def mGear (cs : List Char) : Option ((Char × List Char) × List Char) :=
  (stripLit "gear".data cs).bind fun r1 =>
    (skipWs1 r1).bind fun r2 =>
      match r2 with
      | c :: r3 =>
        if c.isAlpha then
          (lazyGapNoDot mGearTail r3.length r3).map fun q => ((c, q.1), q.2)
        else none
      | [] => none

/-- Matcher for `(d+)\s*(rotation|turn|time)`. -/
def mRotation (cs : List Char) : Option (List Char × List Char) :=
  (mNat cs).bind fun p =>
    let r := skipWs p.2
    (["rotation", "turn", "time"].findSome? fun u => stripLit u.data r).map
      fun r2 => (p.1, r2)

/-- ConstraintSolver.solve_gear_rotations. -/
def solve_gear_rotations (problem : String) : Option String :=
  let pl := problem.pyLower
  if !(pyIn "gear" pl) && !(pyIn "rotation" pl) then none
  else
    match scanAll mGear pl with
    | g1 :: g2 :: _ =>
      let teethA : ℕ := pyNatTok ⟨g1.2⟩
      let teethB : ℕ := pyNatTok ⟨g2.2⟩
      if teethA = 0 then none   -- ZeroDivisionError would propagate; unreachable via the pattern
      else
        let rVal : ℚ := (teethB : ℚ) / (teethA : ℚ)
        match scanAll mRotation pl with
        | rot :: _ =>
          let inputRot : ℕ := pyNatTok ⟨rot⟩
          some ("Gear " ++ String.singleton g2.1 ++ ": " ++ floatStr ((inputRot : ℚ) * rVal))
        | [] => none
    | _ => none

/-- Matcher for `(d+)\s*units?` (greedy optional plural). -/
def mUnits (cs : List Char) : Option (List Char × List Char) :=
  (mNat cs).bind fun p =>
    (stripLit "unit".data (skipWs p.2)).map fun r2 =>
      match r2 with
      | 's' :: r3 => (p.1, r3)
      | _ => (p.1, r2)

/-- Matcher for `(d+)\s*%.*juice`: number, spaces, percent sign, then `juice`
somewhere later on the same line (greedy dot-star only requires existence). -/
def mPctJuice (cs : List Char) : Option (List Char × List Char) :=
  (mNat cs).bind fun p =>
    (stripLit "%".data (skipWs p.2)).bind fun r2 =>
      (lazyGap (stripLit "juice".data) r2.length r2).map fun r3 => (p.1, r3)

/-- ConstraintSolver.parse_beverage_problem.  (A `total_units` of zero would
raise ZeroDivisionError in Python; the embedded division then yields 0.  No
verified statement evaluates such an input.) -/
def parse_beverage_problem (problem : String) (options : List String) : Option String :=
  let pl := problem.pyLower
  match searchFirst mUnits pl with
  | none => none
  | some totTok =>
    let total_units : ℕ := pyNatTok ⟨totTok⟩
    let juice_pct : Option ℚ :=
      if pyIn "juice" pl then
        (searchFirst mPctJuice pl).map (fun t => (pyNatTok ⟨t⟩ : ℚ) / 100)
      else none
    let prefer_balanced := pyIn "equal" pl || pyIn "balanced" pl
    let valid : List (String × ℤ) := options.filterMap fun opt =>
      match scanAll mUnits opt with
      | j :: s :: w :: _ =>
        let juice : ℕ := pyNatTok ⟨j⟩
        let soda : ℕ := pyNatTok ⟨s⟩
        let water : ℕ := pyNatTok ⟨w⟩
        if juice + soda + water ≠ total_units then none
        else
          match juice_pct with
          | some jp =>
            if (juice : ℚ) / (total_units : ℚ) < jp - 1/1000 then none
            else
              let target : ℤ := pyTrunc ((total_units : ℚ) * jp)
              let sc0 : ℤ := 0 - |(juice : ℤ) - target|
              let sc1 : ℤ :=
                if prefer_balanced || !(pyIn "equal" pl) then
                  if soda = water then sc0 + 100 else sc0 - |(soda : ℤ) - (water : ℤ)|
                else sc0
              some (opt, sc1)
          | none =>
            let sc1 : ℤ :=
              if prefer_balanced || !(pyIn "equal" pl) then
                if soda = water then 100 else 0 - |(soda : ℤ) - (water : ℤ)|
              else 0
            some (opt, sc1)
      | _ => none
    if valid = [] then none
    else (stableSort (fun a b => b.2 ≤ a.2) valid).head?.map (fun p => p.1)

/-- Matcher for `(d+)\s*(hours?|minutes?)` with an integer group. -/
def mNatHourMin (cs : List Char) : Option ((List Char × List Char) × List Char) :=
  (mNat cs).bind fun p =>
    let r := skipWs p.2
    match stripLit "hour".data r with
    | some r2 =>
      match r2 with
      | 's' :: r3 => some ((p.1, "hours".data), r3)
      | _ => some ((p.1, "hour".data), r2)
    | none =>
      match stripLit "minute".data r with
      | some r2 =>
        match r2 with
        | 's' :: r3 => some ((p.1, "minutes".data), r3)
        | _ => some ((p.1, "minute".data), r2)
      | none => none

/-- Fallback part of ConstraintSolver.parse_time_problem after the combined
solver declined.  (A zero time in the combined-rate branch raises
ZeroDivisionError in Python, caught only by the step executor; the embedding
returns `none` there and no verified statement evaluates such an input.) -/
def parse_time_problem_rest (problem : String) : Option ℚ :=
  let pl := problem.pyLower
  let pairs := scanAll mNatHourMin pl
  if pairs = [] then none
  else
    let hours : List ℚ := pairs.map fun p =>
      let v : ℚ := (pyNatTok ⟨p.1⟩ : ℚ)
      if pyIn "min" ⟨p.2⟩ then v / 60 else v
    if (pyIn "together" pl || pyIn "combined" pl) && hours.length ≥ 2 then
      if hours.any (fun h => h = 0) then none
      else some (1 / (hours.map (fun h => 1 / h)).sum)
    else if pyIn "total" pl && pyIn "complete" pl then some hours.sum
    else none

/-- ConstraintSolver.parse_time_problem. -/
def parse_time_problem (problem : String) : Option ℚ :=
  match solve_machine_time_combined problem with
  | some r => if r ≠ 0 then some r else parse_time_problem_rest problem
  | none => parse_time_problem_rest problem

/-- Matcher for `(d+)\s*hours?`. -/
def mNatHours (cs : List Char) : Option (List Char × List Char) :=
  (mNat cs).bind fun p =>
    (stripLit "hour".data (skipWs p.2)).map fun r2 =>
      match r2 with
      | 's' :: r3 => (p.1, r3)
      | _ => (p.1, r2)

/-- Matcher for `maximum.*?(d+)\s*hours?.*?day` (both gaps lazy). -/
def mMaxPerDay (cs : List Char) : Option (List Char × List Char) :=
  (stripLit "maximum".data cs).bind fun r1 =>
    lazyGap
      (fun r =>
        (mNatHours r).bind fun p =>
          (lazyGap (stripLit "day".data) p.2.length p.2).map fun r3 => (p.1, r3))
      r1.length r1

/-- Greedy day filling: drop (in order) every task that still fits in the
running day total, keep the rest. -/
def selectFit (limit : ℕ) : ℕ → List ℕ → List ℕ
  | _, [] => []
  | used, t :: ts =>
    if used + t ≤ limit then selectFit limit (used + t) ts
    else t :: selectFit limit used ts

/-- Day loop of the greedy bin packing, with the source's `days > 100` escape. -/
def binPackDays (limit : ℕ) : ℕ → List ℕ → ℕ → ℕ
  | 0, _, days => days
  | fuel + 1, tasks, days =>
    if tasks = [] then days
    else
      let remaining := selectFit limit 0 tasks
      let days2 := days + 1
      if 100 < days2 then days2 else binPackDays limit fuel remaining days2

/-- ConstraintSolver.parse_task_scheduling. -/
def parse_task_scheduling (problem : String) : Option ℕ :=
  let pl := problem.pyLower
  let tasks := (scanAll mNatHours pl).map (fun t => pyNatTok ⟨t⟩)
  if tasks.length < 2 then none
  else
    let daily_limit : ℕ :=
      match searchFirst mMaxPerDay pl with
      | some t => pyNatTok ⟨t⟩
      | none => 8
    let can_split :=
      !(["cannot split", "can" ++ sq ++ "t split", "dedicate entire",
         "complete block"].any (fun w => pyIn w pl))
    if can_split then some ((tasks.sum + daily_limit - 1) / daily_limit)
    else
      let tasks_sorted := stableSort (fun a b => b ≤ a) tasks
      some (binPackDays daily_limit 102 tasks_sorted 0)

/-- ConstraintSolver.solve_optimization (and the `solve_constraints`
convenience wrapper, which merely constructs a solver and calls this). -/
def solve_constraints (problem : String) (options : Option (List String)) : Option String :=
  let pl := problem.pyLower
  if (pyIn "beverage" pl || (pyIn "units" pl && pyIn "juice" pl)) &&
      (match options with | some (_ :: _) => true | _ => false) then
    parse_beverage_problem problem (options.getD [])
  else
    let timeB : Option String :=
      if (pyIn "hours" pl || pyIn "minutes" pl) && (pyIn "machine" pl || pyIn "together" pl)
      then
        match parse_time_problem problem with
        | some r =>
          if r = 0 then none
          else if r < 1 then some (intStr (pyTrunc (r * 60)) ++ " minutes")
          else
            let hours : ℤ := pyTrunc r
            let minutes : ℤ := pyTrunc ((r - hours) * 60)
            if 0 < minutes then
              some (intStr hours ++ " hours and " ++ intStr minutes ++ " minutes")
            else some (intStr hours ++ " hours")
        | none => none
      else none
    match timeB with
    | some s => some s
    | none =>
      if pyIn "task" pl && pyIn "day" pl then
        match parse_task_scheduling problem with
        | some d => if d ≠ 0 then some (natStr d ++ " days") else none
        | none => none
      else none

/-! ## Planner (src/backend/agents/planner.py) -/

/-- ProblemType enum. -/
inductive ProblemType where
  | spatial_reasoning
  | mathematical
  | logical
  | sequence
  | optimization
  | lateral_thinking
  | classic_riddle
deriving DecidableEq, Repr

/-- String value of a ProblemType. -/
def ProblemType.value : ProblemType → String
  | .spatial_reasoning => "spatial_reasoning"
  | .mathematical => "mathematical"
  | .logical => "logical"
  | .sequence => "sequence"
  | .optimization => "optimization"
  | .lateral_thinking => "lateral_thinking"
  | .classic_riddle => "classic_riddle"

/-- ReasoningStrategy enum. -/
inductive ReasoningStrategy where
  | direct_calculation
  | step_by_step_logic
  | pattern_recognition
  | constraint_satisfaction
  | spatial_visualization
  | creative_thinking
deriving DecidableEq, Repr

/-- ReasoningPlan dataclass. -/
structure ReasoningPlan where
  problem_type : ProblemType
  strategy : ReasoningStrategy
  sub_problems : List String
  required_tools : List String
  constraints : List String
  expected_answer_format : String
  confidence_threshold : ℚ := 7/10
deriving DecidableEq, Repr

/-- Iteration order of the ProblemType enum (its declaration order, which is
also the insertion order of the planner's keyword dictionary). -/
def problemTypeOrder : List ProblemType :=
  [.spatial_reasoning, .mathematical, .logical, .sequence, .optimization,
   .lateral_thinking, .classic_riddle]

/-- Keyword table of PlannerAgent.__init__, in dictionary insertion order. -/
def problem_keywords : ProblemType → List String
  | .spatial_reasoning =>
      ["cube", "3d", "surface", "volume", "faces", "edges",
       "corner", "diagonal", "geometry", "shape", "rotate", "painted"]
  | .mathematical =>
      ["calculate", "equation", "sum", "multiply", "divide",
       "percentage", "ratio", "average", "total", "machines"]
  | .logical =>
      ["if", "then", "true", "false", "statement", "consistent",
       "contradiction", "must be", "cannot be", "machine", "button"]
  | .sequence =>
      ["sequence", "pattern", "next number", "series", "follows",
       "continue", "missing", "dots"]
  | .optimization =>
      ["minimize", "maximize", "optimal", "best", "schedule",
       "efficiency", "shortest", "longest", "most", "least",
       "planning", "days", "hours", "tasks"]
  | .lateral_thinking =>
      ["how can", "possible", "unexpected", "strange",
       "shoots", "underwater", "hangs", "dies", "survived"]
  | .classic_riddle =>
      ["riddle", "what am i", "puzzle", "classic", "race",
       "overtake", "position", "gold coins", "will", "divide"]

/-- PlannerAgent.classify_problem.  Python `max(scores, key=scores.get)`
returns the first key attaining the maximum in dictionary order. -/
def classify_problem (problem : String) (topic : Option String) : ProblemType :=
  let pl := problem.pyLower
  let fromTopic : Option ProblemType :=
    match topic with
    | some t =>
      let tl := (t.pyLower).pyUnderscore
      problemTypeOrder.find? (fun pt => pyIn pt.value tl || pyIn tl pt.value)
    | none => none
  match fromTopic with
  | some pt => pt
  | none =>
    let scores : List (ProblemType × ℕ) := problemTypeOrder.map fun pt =>
      (pt, ((problem_keywords pt).filter (fun k => pyIn k pl)).length)
    let best := scores.foldl
      (fun (acc : ProblemType × ℕ) s => if acc.2 < s.2 then s else acc)
      (ProblemType.logical, 0)
    if 0 < best.2 then best.1 else ProblemType.logical

/-- PlannerAgent.select_strategy. -/
def select_strategy (pt : ProblemType) : ReasoningStrategy :=
  match pt with
  | .spatial_reasoning => .spatial_visualization
  | .mathematical => .direct_calculation
  | .logical => .step_by_step_logic
  | .sequence => .pattern_recognition
  | .optimization => .constraint_satisfaction
  | .lateral_thinking => .creative_thinking
  | .classic_riddle => .creative_thinking

/-- PlannerAgent.decompose_problem. -/
def decompose_problem (pt : ProblemType) : List String :=
  match pt with
  | .spatial_reasoning =>
      ["Identify the geometric shape/structure",
       "Determine relevant dimensions",
       "Apply spatial formulas or logic",
       "Calculate the answer"]
  | .mathematical =>
      ["Extract numerical values and relationships",
       "Set up equations or formulas",
       "Perform calculations",
       "Verify answer against constraints"]
  | .sequence =>
      ["Identify the given sequence",
       "Analyze differences or ratios",
       "Determine the pattern rule",
       "Apply rule to find next term"]
  | .optimization =>
      ["Identify constraints and objectives",
       "List all possible approaches",
       "Evaluate each option",
       "Select optimal solution"]
  | .logical =>
      ["Identify given facts and conditions",
       "Determine what needs to be proven",
       "Apply logical rules step by step",
       "Reach conclusion"]
  | _ =>
      ["Identify literal interpretation",
       "Consider alternative meanings",
       "Apply creative thinking",
       "Find unconventional solution"]

/-- PlannerAgent.identify_tools. -/
def identify_tools (pt : ProblemType) (problem : String) : List String :=
  let pl := problem.pyLower
  ["reasoning_engine"] ++
  (if pt = .mathematical || pt = .spatial_reasoning then ["calculator", "symbolic_solver"]
   else []) ++
  (if pt = .sequence then ["pattern_analyzer", "calculator"] else []) ++
  (if pt = .optimization then ["constraint_solver", "calculator"] else []) ++
  (if pyIn "code" pl || pyIn "program" pl then ["code_executor"] else []) ++
  ["verifier"]

/-- PlannerAgent.extract_constraints. -/
def extract_constraints (problem : String) : List String :=
  let indicators :=
    ["must", "cannot", "only", "exactly", "at least", "at most",
     "without", "given that", "assuming", "if", "provided that"]
  (pySplitDot problem).filterMap fun sentence =>
    if indicators.any (fun ind => pyIn ind sentence.pyLower) then some sentence.pyTrim
    else none

/-- PlannerAgent._determine_answer_format. -/
def determine_answer_format (problem : String) : String :=
  let pl := problem.pyLower
  if pyIn "how many" pl then "integer"
  else if pyIn "what is the" pl then
    if pyIn "percentage" pl || pyIn "%" problem then "percentage"
    else if pyIn "ratio" pl then "ratio"
    else "value"
  else if pyIn "which" pl || pyIn "what" pl then "categorical"
  else if pyIn "true or false" pl then "boolean"
  else "text"

/-- PlannerAgent.create_plan (oracle-free setting: the Mistral
problem-understanding call is absent and unused anyway). -/
def create_plan (problem : String) (topic : Option String) : ReasoningPlan :=
  let pt := classify_problem problem topic
  { problem_type := pt
    strategy := select_strategy pt
    sub_problems := decompose_problem pt
    required_tools := identify_tools pt problem
    constraints := extract_constraints problem
    expected_answer_format := determine_answer_format problem
    confidence_threshold := 7/10 }

/-! ## Reasoner data model (src/backend/agents/reasoner.py) -/

/-- ReasoningStep dataclass (timestamp omitted). -/
structure ReasoningStep where
  step_number : ℕ
  action : String
  thought : String
  tool_used : Option String := none
  tool_input : Option PyVal := none
  tool_output : Option PyVal := none
  result : Option String := none
  verified : Bool := false
  confidence : ℚ := 0
deriving DecidableEq, Repr

/-- ReasoningChain dataclass. -/
structure ReasoningChain where
  problem : String
  plan : ReasoningPlan
  steps : List ReasoningStep := []
  final_answer : Option String := none
  overall_confidence : ℚ := 0
deriving DecidableEq, Repr

/-! ## SelfCorrector (src/backend/agents/self_corrector.py) -/

/-- Sentinel list of SelfCorrector.validate_result (compared lowercased). -/
def validateStatusStrings : List String :=
  ["processed", "calculated", "verified", "identified",
   "optimal_solution", "conclusion_reached", "equation_ready",
   "options_evaluated", "pattern_identified"]

/-- SelfCorrector.validate_result. -/
def validate_result (result problem : String) (options : Option (List String)) :
    Bool × Option String :=
  if result = "" then (false, some "Empty result")
  else
    let result_lower := result.pyLower.pyTrim
    if validateStatusStrings.contains result_lower then
      (false, some ("Status string " ++ sq ++ result ++ sq ++ " is not a valid answer"))
    else
      let exact : Option String :=
        match options with
        | some opts => opts.find? (fun opt => result.pyTrim = opt.pyTrim)
        | none => none
      match exact with
      | some _ => (true, none)
      | none =>
        let partialM : Option String :=
          match options with
          | some opts =>
            opts.find? (fun opt =>
              pyIn result.pyLower opt.pyLower || pyIn opt.pyLower result.pyLower)
          | none => none
        match partialM with
        | some opt => (true, some ("Consider using full option: " ++ sq ++ opt ++ sq))
        | none =>
          match (scanAll mNumLoose result).map (fun t => String.mk t) with
          | tok :: _ =>
            let num := pyFloatTok tok
            if 1000000 < |num| then
              (false, some ("Unreasonably large number: " ++ floatStr num))
            else if (pyIn "percentage" problem.pyLower || pyIn "%" problem) && 100 < num then
              (false, some ("Percentage > 100%: " ++ floatStr num))
            else (true, none)
          | [] => (true, none)

/-- SelfCorrector.suggest_correction, first scan (tool outputs, most recent
first; the argument list is already reversed). -/
def suggestLoop1 (options : Option (List String)) : List ReasoningStep → Option String
  | [] => none
  | st :: rest =>
    match st.tool_output with
    | some v =>
      if !pyValTruthy v then suggestLoop1 options rest
      else
        match v with
        | .vStr s =>
          if ["processed", "calculated", "verified"].contains s.pyLower then
            suggestLoop1 options rest
          else
            match options with
            | some opts =>
              match opts.find? (fun opt =>
                  pyIn s.pyLower opt.pyLower || pyIn opt.pyLower s.pyLower) with
              | some opt => some opt
              | none => some s
            | none => some s
        | _ =>
          let tos := pyValStr v
          match options with
          | some opts =>
            match opts.find? (fun opt =>
                pyIn tos.pyLower opt.pyLower || pyIn opt.pyLower tos.pyLower) with
            | some opt => some opt
            | none => some tos
          | none => some tos
    | none => suggestLoop1 options rest

/-- SelfCorrector.suggest_correction, second scan (step results). -/
def suggestLoop2 (options : Option (List String)) : List ReasoningStep → Option String
  | [] => none
  | st :: rest =>
    match st.result with
    | some r =>
      if r = "" then suggestLoop2 options rest
      else if ["processed", "calculated", "verified", "identified"].contains r.pyLower then
        suggestLoop2 options rest
      else
        match options with
        | some opts =>
          match opts.find? (fun opt => pyIn r opt || pyIn opt r) with
          | some opt => some opt
          | none => some r
        | none => some r
    | none => suggestLoop2 options rest

/-- SelfCorrector.suggest_correction. -/
def suggest_correction (reasoning_steps : List ReasoningStep)
    (options : Option (List String)) : Option String :=
  match suggestLoop1 options reasoning_steps.reverse with
  | some s => some s
  | none =>
    match suggestLoop2 options reasoning_steps.reverse with
    | some s => some s
    | none =>
      match options with
      | some (o :: _) => some o
      | _ => none

/-- Reliable tool names of SelfCorrector.calculate_confidence. -/
def reliableTools : List String :=
  ["calculator", "symbolic_solver", "geometry_calculator",
   "constraint_solver", "pattern_analyzer"]

/-- SelfCorrector.calculate_confidence (the verification argument is `None` on
every call path embedded here, as in `self_correct`). -/
def calculate_confidence (result problem : String)
    (reasoning_steps : List ReasoningStep) : ℚ :=
  let c0 : ℚ := 1/2
  let c1 : ℚ := if (validate_result result problem none).1 then c0 + 1/5 else c0 - 1/10
  let used : ℕ := (reliableTools.filter (fun t =>
    reasoning_steps.any (fun st => st.tool_used = some t))).length
  let c2 : ℚ := c1 + (1/10) * used
  let confs := (reasoning_steps.filter (fun st => 0 < st.confidence)).map
    (fun st => st.confidence)
  let c3 : ℚ :=
    if confs.length = 0 then c2
    else (c2 + confs.sum / confs.length) / 2
  max (1/10) (min (19/20) c3)

/-- SelfCorrector.self_correct (and the `self_correct_answer` convenience
wrapper): returns (corrected_answer, correction_reason, confidence). -/
def self_correct (preliminary problem : String) (reasoning_steps : List ReasoningStep)
    (options : Option (List String)) : String × String × ℚ :=
  let v := validate_result preliminary problem options
  let msg := v.2.getD ""
  let fr : String × String :=
    if v.1 then (preliminary, "")
    else
      match suggest_correction reasoning_steps options with
      | some s =>
        if s ≠ "" && s ≠ preliminary then
          (s, "Corrected: " ++ msg ++ " â†’ Using " ++ s)
        else (preliminary, "Warning: " ++ msg)
      | none => (preliminary, "Warning: " ++ msg)
  (fr.1, fr.2, calculate_confidence fr.1 problem reasoning_steps)

/-! ## Answer synthesizer (ReasonerAgent._determine_final_answer) -/

/-- Sentinel list of ReasonerAgent._determine_final_answer (compared
case-sensitively). -/
def dfaStatusStrings : List String :=
  ["processed", "calculated", "verified", "optimal_solution",
   "conclusion_reached", "equation_ready", "pattern_identified",
   "facts_extracted", "goal_identified", "logic_applied",
   "constraints_identified", "approaches_listed", "evaluated",
   "facts", "proven", "3d_shape", "cube", "sphere", "cylinder"]

/-- Canonical string of a numeric tool output: an integral float prints as an
int (no trailing `.0`), exactly `str(int(x)) if x.is_integer() else str(x)`. -/
def numOutputStr : PyVal → String
  | .vInt n => intStr n
  | .vFloat q => if q.den = 1 then intStr q.num else floatStr q
  | .vStr s => s

/-- Option matching for a numeric answer string: equality, answer contained in
the option, or option starting with the answer. -/
def numOptionMatch (a : String) (options : Option (List String)) : String :=
  match options with
  | some opts =>
    match opts.find? (fun opt => a = opt || pyIn a opt || opt.pyStartsWith a) with
    | some opt => opt
    | none => a
  | none => a

/-- Option matching for a string answer: case-insensitive substring in either
direction. -/
def strOptionMatch (s : String) (options : Option (List String)) : String :=
  match options with
  | some opts =>
    match opts.find? (fun opt =>
        pyIn s.pyLower opt.pyLower || pyIn opt.pyLower s.pyLower) with
    | some opt => opt
    | none => s
  | none => s

/-- First-priority scan of _determine_final_answer (tool outputs, list already
reversed): numeric outputs and non-sentinel string outputs stop the scan,
sentinel string outputs are skipped. -/
def dfaLoop1 (options : Option (List String)) : List ReasoningStep → Option String
  | [] => none
  | st :: rest =>
    match st.tool_output with
    | some (.vInt n) => some (numOptionMatch (numOutputStr (.vInt n)) options)
    | some (.vFloat q) => some (numOptionMatch (numOutputStr (.vFloat q)) options)
    | some (.vStr s) =>
      if dfaStatusStrings.contains s then dfaLoop1 options rest
      else some (strOptionMatch s options)
    | none => dfaLoop1 options rest

/-- Second-priority scan of _determine_final_answer (step results). -/
def dfaLoop2 (options : Option (List String)) : List ReasoningStep → Option String
  | [] => none
  | st :: rest =>
    match st.result with
    | some r =>
      if r = "" || dfaStatusStrings.contains r then dfaLoop2 options rest
      else if pyIn "," r && !(r.pyRemComma.data.any Char.isAlpha) then
        dfaLoop2 options rest
      else
        let fromOpts :=
          match options with
          | some opts =>
            opts.find? (fun opt =>
              pyIn (r.pyLower.pyTrim) opt.pyLower || pyIn opt.pyLower (r.pyLower.pyTrim))
          | none => none
        match fromOpts with
        | some opt => some opt
        | none =>
          if 2 < r.length && !dfaStatusStrings.contains r then some r
          else dfaLoop2 options rest
    | none => dfaLoop2 options rest

/-- ReasonerAgent._determine_final_answer (oracle-free: the third-priority
Mistral suggestion is absent). -/
def determine_final_answer (chain : ReasoningChain) (options : Option (List String)) :
    String :=
  match dfaLoop1 options chain.steps.reverse with
  | some a => a
  | none =>
    match dfaLoop2 options chain.steps.reverse with
    | some a => a
    | none =>
      match options with
      | some (o :: _) => o
      | _ => "Unable to determine answer"

/-! ## Step executor (ReasonerAgent.execute_plan / _execute_sub_problem)

The per-type handler bodies dispatched inside `_execute_sub_problem`'s `try`
are the solver pool; `execute_plan` is embedded parametrically in that body (a
function of the full problem, the sub-problem, the options and the freshly
initialised step, returning either the mutated step or a raised exception
message together with the partially mutated step).  The mathematical handler
is embedded concretely below. -/

/-- Solver-pool body: either the mutated step or (exception text, step as
mutated so far). -/
def HandlerFun : Type :=
  String → String → Option (List String) → ReasoningStep →
    Except (String × ReasoningStep) ReasoningStep

/-- Fresh step as initialised at the top of _execute_sub_problem. -/
def initStep (n : ℕ) (sub : String) : ReasoningStep :=
  { step_number := n, action := sub, thought := "" }

/-- ReasonerAgent._execute_sub_problem: run the handler body; on success the
step gets the default confidence 0.8, on an exception the step survives with
an error thought and confidence 0.1. -/
def execute_sub_problem (h : HandlerFun) (n : ℕ) (sub problem : String)
    (options : Option (List String)) : ReasoningStep :=
  match h problem sub options (initStep n sub) with
  | .ok st => { st with confidence := 4/5 }
  | .error e => { e.2 with thought := "Error executing step: " ++ e.1, confidence := 1/10 }

/-- Step loop of execute_plan: one step per sub-problem, numbering from 1. -/
def execSteps (h : HandlerFun) (problem : String) (options : Option (List String)) :
    ℕ → List String → List ReasoningStep
  | _, [] => []
  | n, sub :: rest =>
    execute_sub_problem h n sub problem options :: execSteps h problem options (n + 1) rest

/-- Synthetic self-correction step appended when the corrected answer differs. -/
def correctionStep (n : ℕ) (answer reason : String) (conf : ℚ) : ReasoningStep :=
  { step_number := n, action := "Self-correction", thought := reason,
    result := some answer, tool_used := some "self_corrector",
    verified := true, confidence := conf }

/-- ReasonerAgent.execute_plan. -/
def execute_plan (h : HandlerFun) (problem : String) (plan : ReasoningPlan)
    (options : Option (List String)) : ReasoningChain :=
  let steps0 := execSteps h problem options 1 plan.sub_problems
  let chain0 : ReasoningChain := { problem := problem, plan := plan, steps := steps0 }
  let pre := determine_final_answer chain0 options
  let sc := self_correct pre problem steps0 options
  let steps1 :=
    if sc.1 ≠ pre then steps0 ++ [correctionStep (steps0.length + 1) sc.1 sc.2.1 sc.2.2]
    else steps0
  { problem := problem, plan := plan, steps := steps1,
    final_answer := some sc.1, overall_confidence := sc.2.2 }

/-! ## Mathematical handler (ReasonerAgent._handle_mathematical_step) -/

/-- Equation branch of the mathematical handler: the fixed solver cascade, with
the first truthy solver output winning. -/
def mathEquationBranch (problem : String) (options : Option (List String))
    (st : ReasoningStep) : ReasoningStep :=
  let stage1 : Option ReasoningStep :=
    (solve_work_rate_problem problem).bind fun r =>
      if r = "" then none
      else some { st with tool_output := some (.vStr r), result := some r,
                          thought := "Enhanced work rate calculation: " ++ r,
                          tool_used := some "enhanced_work_rate" }
  let stage2 : Option ReasoningStep :=
    (solve_machine_production_problem problem).bind fun r =>
      if r = "" then none
      else some { st with tool_output := some (.vStr r), result := some r,
                          thought := "Machine production optimization: " ++ r,
                          tool_used := some "production_optimizer" }
  let stage3 : Option ReasoningStep :=
    (solve_switch_machine_problem problem).bind fun r =>
      if r = "" then none
      else some { st with tool_output := some (.vStr r), result := some r,
                          thought := "Switch-machine identification: " ++ r,
                          tool_used := some "switch_identifier" }
  let stage4 : Option ReasoningStep :=
    (solve_machine_time_combined problem).bind fun ct =>
      if ct = 0 then none
      else
        let hours : ℤ := pyTrunc ct
        let minutes : ℤ := pyTrunc ((ct - hours) * 60)
        let result_str :=
          if 0 < minutes then intStr hours ++ " hours and " ++ intStr minutes ++ " minutes"
          else floatStr ct ++ " hours"
        some { st with tool_output := some (.vFloat ct), result := some result_str,
                       thought := "Combined work rate: " ++ result_str,
                       tool_used := some "work_rate_calculator" }
  let stage5 : Option ReasoningStep :=
    (solve_pipeline_scheduling problem).bind fun r =>
      if r = "" then none
      else some { st with tool_output := some (.vStr r), result := some r,
                          thought := "Pipeline scheduling: Natural process order is " ++ r,
                          tool_used := some "pipeline_scheduler" }
  let stage6 : Option ReasoningStep :=
    (solve_gear_rotations problem).bind fun r =>
      if r = "" then none
      else some { st with tool_output := some (.vStr r), result := some r,
                          thought := "Gear calculation: " ++ r,
                          tool_used := some "gear_calculator" }
  let stage7 : Option ReasoningStep :=
    (calculate_worst_case_presses problem).bind fun p =>
      if p = 0 then none
      else
        match options with
        | some (o :: os) =>
          let opts := o :: os
          let thought := "Worst-case analysis: Need " ++ natStr p ++ " button presses"
          match opts.find? (fun opt =>
              pyIn (natStr p) opt.pyLower || pyIn (natStr p ++ " press") opt.pyLower ||
              (p = 6 && pyIn "six" opt.pyLower)) with
          | some opt =>
            some { st with tool_output := some (.vInt p), result := some opt,
                           thought := thought, tool_used := some "worst_case_analyzer" }
          | none =>
            some { st with tool_output := some (.vInt p),
                           result := some (natStr p ++ " presses"),
                           thought := thought, tool_used := some "worst_case_analyzer" }
        | _ => none
  let stage8 : Option ReasoningStep :=
    (solve_constraints problem none).bind fun s =>
      if s = "" then none
      else some { st with tool_output := some (.vStr s), result := some s,
                          thought := "Constraint analysis: " ++ s,
                          tool_used := some "constraint_solver" }
  let fallback : ReasoningStep :=
    let numbers := (scanAll mNumLoose problem).map (fun t => String.mk t)
    let base :=
      match numbers with
      | n1 :: n2 :: _ =>
        let s : ℚ := pyFloatTok n1 + pyFloatTok n2
        { st with tool_output := some (.vFloat s), result := some (floatStr s) }
      | _ => st
    let base2 := { base with thought := "Set up mathematical equation" }
    if strTruthy base2.result then base2 else { base2 with result := some "equation_ready" }
  (([stage1, stage2, stage3, stage4, stage5, stage6, stage7, stage8].findSome? id).getD
    fallback)

/-- ReasonerAgent._handle_mathematical_step (total: no embedded branch can
raise; the inner calculator calls on joined number tokens are exact sums and
products). -/
def mathematicalStep (problem sub : String) (options : Option (List String))
    (st : ReasoningStep) : ReasoningStep :=
  let sl := sub.pyLower
  if pyIn "extract" sl then
    let numbers := (scanAll mNumLoose problem).map (fun t => String.mk t)
    { st with thought := "Extracted values: " ++ pyStrListRepr numbers,
              result := some (pyIntercalate "," numbers) }
  else if pyIn "equation" sl || pyIn "identify" sl then
    mathEquationBranch problem options st
  else if pyIn "calculate" sl || pyIn "perform" sl then
    let numbers := (scanAll mNumLoose problem).map (fun t => String.mk t)
    match numbers with
    | n1 :: n2 :: _ =>
      let p : ℚ := pyFloatTok n1 * pyFloatTok n2
      { st with tool_output := some (.vFloat p), result := some (floatStr p),
                thought := "Calculated: " ++ floatStr p, tool_used := some "calculator" }
    | _ =>
      { st with thought := "Performing calculations", tool_used := some "calculator",
                result := some "calculated" }
  else if pyIn "verify" sl then
    { st with thought := "Verifying answer against constraints", verified := true,
              result := some "verified" }
  else st

/-- Handler wrapper for a mathematical-type plan: the dispatched body never
raises. -/
def mathHandler : HandlerFun :=
  fun problem sub options st => Except.ok (mathematicalStep problem sub options st)

/-! ## Verifier (src/backend/agents/verifier.py) -/

/-- VerificationResult dataclass. -/
structure VerificationResult where
  is_valid : Bool
  confidence : ℚ
  issues : List String
  suggestions : List String
deriving DecidableEq, Repr

/-- VerifierAgent.verify_step.  The NaN/infinity probe on float outputs never
fires in the exact-rational model and is omitted. -/
def verify_step (step : ReasoningStep) : VerificationResult :=
  let noResult := !strTruthy step.result && !valTruthy step.tool_output
  let issues : List String := if noResult then ["Step produced no result"] else []
  let c0 : ℚ := if noResult then 3/10 else 4/5
  let toolGap := pyIn "calculate" step.action.pyLower && !strTruthy step.tool_used
  let sugg1 : List String :=
    if toolGap then ["Consider using calculator tool for calculations"] else []
  let c1 : ℚ := if toolGap then c0 - 1/10 else c0
  let thinThought := step.thought = "" || step.thought.length < 10
  let sugg2 : List String := if thinThought then ["Add more detailed reasoning"] else []
  let c2 : ℚ := if thinThought then c1 - 1/10 else c1
  { is_valid := issues = [] && 1/2 < c2,
    confidence := max 0 (min 1 c2),
    issues := issues,
    suggestions := sugg1 ++ sugg2 }

/-- VerifierAgent._steps_connected. -/
def steps_connected (step1 step2 : ReasoningStep) : Bool :=
  match step1.result with
  | some r =>
    if r ≠ "" && step2.thought ≠ "" then pyIn r step2.thought.pyLower else true
  | none => true

/-- Weak-connectivity suggestions for consecutive step pairs, numbering from
the given index. -/
def connectivitySuggestions : ℕ → List ReasoningStep → List String
  | _, [] => []
  | _, [_] => []
  | i, s1 :: s2 :: rest =>
    (if !steps_connected s1 s2 then
      ["Steps " ++ natStr (i + 1) ++ " and " ++ natStr (i + 2) ++ " may not be well connected"]
    else []) ++ connectivitySuggestions (i + 1) (s2 :: rest)

/-- VerifierAgent.verify_chain, result part. -/
def verify_chain (chain : ReasoningChain) : VerificationResult :=
  let perStep := chain.steps.map verify_step
  let stepIssues := (perStep.map (fun r => r.issues)).flatten
  let stepSuggestions := (perStep.map (fun r => r.suggestions)).flatten
  let confs0 := perStep.map (fun r => r.confidence)
  let incomplete := chain.steps.length < chain.plan.sub_problems.length
  let issues1 := stepIssues ++ (if incomplete then ["Not all sub-problems were addressed"] else [])
  let suggestions := stepSuggestions ++ connectivitySuggestions 0 chain.steps
  let noFinal :=
    !strTruthy chain.final_answer || chain.final_answer = some "Unable to determine answer"
  let all_issues := issues1 ++ (if noFinal then ["No valid final answer determined"] else [])
  let step_confidences := confs0 ++ (if noFinal then [(0 : ℚ)] else [])
  let overall0 : ℚ :=
    if step_confidences.length = 0 then 1/2
    else step_confidences.sum / step_confidences.length
  let overall : ℚ := if all_issues ≠ [] then overall0 * (7/10) else overall0
  { is_valid := all_issues = [] && 3/5 < overall,
    confidence := overall,
    issues := all_issues,
    suggestions := suggestions }

/-- Side effect of verify_chain on the chain: each step's `verified` and
`confidence` are overwritten from its per-step verification. -/
def verify_chain_update (chain : ReasoningChain) : ReasoningChain :=
  { chain with steps := chain.steps.map (fun s =>
      let r := verify_step s
      { s with verified := r.is_valid, confidence := r.confidence }) }

/-- VerifierAgent.calculate_confidence_score. -/
def calculate_confidence_score (chain : ReasoningChain) (verification : VerificationResult) :
    ℚ :=
  let f1 : ℚ := verification.confidence
  let plan_completion : ℚ :=
    if chain.plan.sub_problems.length = 0 then 1
    else (chain.steps.length : ℚ) / (chain.plan.sub_problems.length : ℚ)
  let f2 : ℚ := min 1 plan_completion
  let steps_with_tools : ℕ := (chain.steps.filter (fun s => strTruthy s.tool_used)).length
  let expected_tools : ℕ :=
    (chain.plan.required_tools.filter (fun t => t ≠ "reasoning_engine")).length
  let tool_usage : ℚ :=
    if 0 < expected_tools then (steps_with_tools : ℚ) / (expected_tools : ℚ) else 4/5
  let f3 : ℚ := min 1 tool_usage
  let f4 : ℚ :=
    if verification.issues.any (fun i => pyIn "error" i.pyLower) then 3/10 else 1
  max 0 (min 1 (f1 * (2/5) + f2 * (1/5) + f3 * (1/5) + f4 * (1/5)))

/-! ## Orchestrator (src/backend/reasoning_system.py) -/

/-- Sentinel list of AgenticReasoningSystem._refine_answer. -/
def refineStatusStrings : List String :=
  ["processed", "calculated", "verified", "Another answer"]

/-- AgenticReasoningSystem._refine_answer (the verification argument of the
source is never read and is not a parameter here). -/
def refine_answer (preliminary : String) (options : Option (List String)) : String :=
  match options with
  | some (o :: os) =>
    let opts := o :: os
    match opts.find? (fun opt => preliminary.pyLower.pyTrim = opt.pyLower.pyTrim) with
    | some opt => opt
    | none =>
      match opts.find? (fun opt => pyIn preliminary.pyLower opt.pyLower) with
      | some opt => opt
      | none =>
        match opts.find? (fun opt => pyIn opt.pyLower preliminary.pyLower) with
        | some opt => opt
        | none =>
          let overlapHit : Option String :=
            if !refineStatusStrings.contains preliminary then
              opts.find? (fun opt =>
                (pyWords opt.pyLower).any (fun w => (pyWords preliminary.pyLower).contains w))
            else none
          match overlapHit with
          | some opt => opt
          | none =>
            if (refineStatusStrings.contains preliminary || preliminary = "" ||
                preliminary = "Unable to determine answer") &&
               opts.contains "Another answer" then "Another answer"
            else preliminary
  | _ => preliminary

/-- SolutionResult dataclass (execution_time not modelled). -/
structure SolutionResult where
  problem : String
  answer : String
  reasoning_chain : ReasoningChain
  verification : VerificationResult
  confidence : ℚ
deriving DecidableEq, Repr

/-- AgenticReasoningSystem.solve, threading the per-instance solution cache:
plan, execute, verify (which rewrites step verification fields), aggregate
confidence, reconcile against options, then overwrite the cache entry for the
raw problem text.  The cache is never read. -/
def solve (h : HandlerFun) (cache : List (String × SolutionResult))
    (problem : String) (topic : Option String) (options : Option (List String)) :
    List (String × SolutionResult) × SolutionResult :=
  let plan := create_plan problem topic
  let chain := execute_plan h problem plan options
  let verification := verify_chain chain
  let chainUpd := verify_chain_update chain
  let final_confidence := calculate_confidence_score chainUpd verification
  let final_answer := refine_answer (chainUpd.final_answer.getD "") options
  let result : SolutionResult :=
    { problem := problem, answer := final_answer, reasoning_chain := chainUpd,
      verification := verification, confidence := final_confidence }
  (dictUpsert problem result cache, result)

/-! ## Specification-side definitions

These are written from the specification's wording (not from the source), to
be compared with the embedded code.  Each is named after the claim that uses
it. -/

/-- Reserved status sentinels named by the specification ("processed",
"calculated", "verified", "equation_ready", etc.). -/
def reservedSentinels : List String :=
  ["processed", "calculated", "verified", "equation_ready"]

/-- A solver output that is genuine (non-sentinel) and truthy: a nonzero
number, or a non-empty string that no component treats as a status marker. -/
def truthyGenuine : PyVal → Bool
  | .vInt n => n ≠ 0
  | .vFloat q => q ≠ 0
  | .vStr s =>
    s ≠ "" && !dfaStatusStrings.contains s &&
      !(["processed", "calculated", "verified"].contains s.pyLower)

/-- Step predicate: the recorded solver output, if a string, is none of the
reserved sentinels. -/
def strOutputSafe (st : ReasoningStep) : Bool :=
  match st.tool_output with
  | some (.vStr s) => !reservedSentinels.contains s
  | _ => true

/-- Step predicate: the step recorded a truthy genuine solver output. -/
def stepTruthyGenuine (st : ReasoningStep) : Bool :=
  match st.tool_output with
  | some v => truthyGenuine v
  | none => false

/-- Size of the case-insensitive word overlap between an option and an answer
(distinct shared words, as Python set intersection). -/
def wordOverlapCount (p opt : String) : ℕ :=
  ((pyWords opt.pyLower).dedup.filter (fun w => (pyWords p.pyLower).contains w)).length

/-- Reconciliation cascade as the claim states it, with rule (4) reading "the
option with the LARGEST case-insensitive word-overlap" (first option on a
tie). -/
def refineSpecClaim (p : String) (opts : List String) : String :=
  match opts.find? (fun opt => p.pyLower.pyTrim = opt.pyLower.pyTrim) with
  | some opt => opt
  | none =>
  match opts.find? (fun opt => pyIn p.pyLower opt.pyLower) with
  | some opt => opt
  | none =>
  match opts.find? (fun opt => pyIn opt.pyLower p.pyLower) with
  | some opt => opt
  | none =>
  let byOverlap : Option String :=
    if !refineStatusStrings.contains p then
      let best := opts.foldl
        (fun (acc : Option String × ℕ) opt =>
          if acc.2 < wordOverlapCount p opt then (some opt, wordOverlapCount p opt) else acc)
        (none, 0)
      best.1
    else none
  match byOverlap with
  | some opt => opt
  | none =>
    if (refineStatusStrings.contains p || p = "" || p = "Unable to determine answer") &&
       opts.contains "Another answer" then "Another answer"
    else p

/-- First-match rule cascade: the first rule producing a hit wins, otherwise
the default stands. -/
def firstHit (rules : List (Option String)) (dflt : String) : String :=
  (rules.findSome? id).getD dflt

/-- Reconciliation cascade as amended, phrased as an ordered rule list: exact
case-insensitive match; answer inside option; option inside answer; if the
answer is no sentinel, the FIRST option (in list order) sharing ANY word with
it; the "none of the above" option for sentinel-like answers; otherwise the
answer unchanged. -/
def refineSpecAmended (p : String) (opts : List String) : String :=
  firstHit
    [opts.find? (fun opt => p.pyLower.pyTrim = opt.pyLower.pyTrim),
     opts.find? (fun opt => pyIn p.pyLower opt.pyLower),
     opts.find? (fun opt => pyIn opt.pyLower p.pyLower),
     (if !refineStatusStrings.contains p then
        opts.find? (fun opt => 0 < wordOverlapCount p opt)
      else none),
     (if (refineStatusStrings.contains p || p = "" || p = "Unable to determine answer") &&
         opts.contains "Another answer" then some "Another answer" else none)]
    p

/-- A step the synthesizer's first-priority scan will stop at: a non-null
solver output that is numeric or a non-sentinel string. -/
def stepUsable (s : ReasoningStep) : Bool :=
  match s.tool_output with
  | some (.vInt _) => true
  | some (.vFloat _) => true
  | some (.vStr t) => !dfaStatusStrings.contains t
  | none => false

/-- Answer derived from a single solver output: numeric outputs render
canonically and match options by equality/containment/prefix, string outputs
match by case-insensitive substring in either direction. -/
def answerFromVal (v : PyVal) (options : Option (List String)) : String :=
  match v with
  | .vStr s => strOptionMatch s options
  | v => numOptionMatch (numOutputStr v) options

/-- Validation as amended: non-empty, not a sentinel, and then either an
option match (exact or substring, which shields everything else) or the FIRST
numeric value within bounds (magnitude at most 1,000,000; at most 100 when
the problem mentions a percentage). -/
def validateSpec (result problem : String) (options : Option (List String)) : Bool :=
  result ≠ "" &&
  !validateStatusStrings.contains result.pyLower.pyTrim &&
  (((options.getD []).any (fun opt =>
      result.pyTrim = opt.pyTrim ||
      pyIn result.pyLower opt.pyLower || pyIn opt.pyLower result.pyLower)) ||
   (match (scanAll mNumLoose result).map (fun t => String.mk t) with
    | tok :: _ =>
      let num := pyFloatTok tok
      |num| ≤ 1000000 &&
        !((pyIn "percentage" problem.pyLower || pyIn "%" problem) && 100 < num)
    | [] => true))

/-- Chain-verification spec: whether the final answer is missing or the
"unable to determine" sentinel. -/
def c6NoFinal (chain : ReasoningChain) : Bool :=
  !strTruthy chain.final_answer || chain.final_answer = some "Unable to determine answer"

/-- Chain-verification spec: the confidence samples (per-step verification
confidences, plus one zero sample when the final answer is absent). -/
def c6Samples (chain : ReasoningChain) : List ℚ :=
  chain.steps.map (fun s => (verify_step s).confidence) ++
    (if c6NoFinal chain then [(0 : ℚ)] else [])

/-- Chain-verification spec: whether any issue is flagged (a per-step issue,
chain incompleteness, or a missing final answer); connectivity findings are
not issues. -/
def c6HasIssue (chain : ReasoningChain) : Bool :=
  chain.steps.any (fun s => (verify_step s).issues ≠ []) ||
  decide (chain.steps.length < chain.plan.sub_problems.length) ||
  c6NoFinal chain

/-! ## Concrete instances used by witnesses and counterexamples -/

/-- The work-rate scenario of the specification: two machines, 12 and 6 hours,
asked for the combined time. -/
def c9problem : String :=
  "Two machines take 12 hours and 6 hours respectively to complete a job. How long will they take working together?"

/-- Solver-pool stub whose every step records the genuine string output
"proc". -/
def procHandler : HandlerFun :=
  fun _ _ _ st => Except.ok { st with tool_output := some (.vStr "proc") }

/-- Solver-pool stub whose every step records the genuine numeric output 5. -/
def intFiveHandler : HandlerFun :=
  fun _ _ _ st => Except.ok { st with tool_output := some (.vInt 5) }

/-- Solver-pool stub that raises on every sub-problem. -/
def failHandler : HandlerFun :=
  fun _ _ _ st => Except.error ("boom", st)

/-- Chain with a numeric solver output in the first step and a string solver
output in the second (later) step. -/
def c3chain : ReasoningChain :=
  { problem := "q", plan := create_plan "q" none,
    steps := [{ initStep 1 "a" with tool_output := some (.vInt 7) },
              { initStep 2 "b" with tool_output := some (.vStr "blue") }] }

/-- The later step of c3chain, the one its most-recent-first scan stops at. -/
def c3staleStep : ReasoningStep := { initStep 2 "b" with tool_output := some (.vStr "blue") }

/-- Small well-formed chain used to exercise chain verification. -/
def c6chain : ReasoningChain :=
  { problem := "q", plan := create_plan "q" none,
    steps := [{ step_number := 1, action := "compute the value",
                thought := "a long enough thought", result := some "42",
                confidence := 1/2 }],
    final_answer := some "42" }

/-! ## Helper lemmas -/

theorem digitChar_isDigit {n : ℕ} (h : n < 10) : (Nat.digitChar n).isDigit = true := by
  interval_cases n <;> decide

theorem natDigitsAux_isDigit :
    ∀ fuel n c, c ∈ natDigitsAux fuel n → c.isDigit = true := by
  intro fuel
  induction fuel with
  | zero => intro n c h; simp [natDigitsAux] at h
  | succ f ih =>
    intro n c h
    simp only [natDigitsAux] at h
    split at h
    · rcases List.mem_singleton.mp h with rfl
      exact digitChar_isDigit (by omega)
    · rcases List.mem_append.mp h with h1 | h1
      · exact ih _ _ h1
      · rcases List.mem_singleton.mp h1 with rfl
        exact digitChar_isDigit (Nat.mod_lt _ (by omega))

theorem natStr_isDigit {n : ℕ} {c : Char} (h : c ∈ (natStr n).data) : c.isDigit = true :=
  natDigitsAux_isDigit _ _ _ h

theorem intStr_chars {i : ℤ} {c : Char} (h : c ∈ (intStr i).data) :
    c.isDigit = true ∨ c = '-' ∨ c = '.' ∨ c = '/' := by
  unfold intStr at h
  split at h
  · rw [String.data_append] at h
    rcases List.mem_append.mp h with h1 | h1
    · right; left; simpa using List.mem_singleton.mp h1
    · exact Or.inl (natStr_isDigit h1)
  · exact Or.inl (natStr_isDigit h)

theorem padZero_chars {k : ℕ} {ds : List Char} {c : Char}
    (h : c ∈ padZero k ds) (hds : ∀ d ∈ ds, d.isDigit = true) : c.isDigit = true := by
  unfold padZero at h
  rcases List.mem_append.mp h with h1 | h1
  · rcases List.eq_of_mem_replicate h1 with rfl; decide
  · exact hds _ h1

theorem sgnStr_chars {P : Prop} [Decidable P] {c : Char}
    (h : c ∈ ((if P then "-" else "") : String).data) : c = '-' := by
  split at h
  · simpa using h
  · simp [String.data] at h

theorem dotZero_chars {c : Char} (h : c ∈ (".0" : String).data) : c = '.' ∨ c = '0' := by
  have he : (".0" : String).data = ['.', '0'] := rfl
  rw [he] at h
  simpa using h

theorem floatStr_chars {q : ℚ} {c : Char} (h : c ∈ (floatStr q).data) :
    c.isDigit = true ∨ c = '-' ∨ c = '.' ∨ c = '/' := by
  simp only [floatStr] at h
  split at h
  · simp only [String.data_append] at h
    rcases List.mem_append.mp h with h1 | h1
    · rcases List.mem_append.mp h1 with h2 | h2
      · exact Or.inr (Or.inl (sgnStr_chars h2))
      · exact Or.inl (natStr_isDigit h2)
    · rcases dotZero_chars h1 with rfl | rfl
      · right; right; left; rfl
      · left; decide
  · split at h
    · simp only [String.data_append] at h
      rcases List.mem_append.mp h with h1 | h1
      · rcases List.mem_append.mp h1 with h2 | h2
        · rcases List.mem_append.mp h2 with h3 | h3
          · exact Or.inr (Or.inl (sgnStr_chars h3))
          · exact Or.inl (natStr_isDigit h3)
        · right; right; left
          simpa using h2
      · exact Or.inl (padZero_chars h1 (fun d hd => natDigitsAux_isDigit _ _ _ hd))
    · simp only [String.data_append] at h
      rcases List.mem_append.mp h with h1 | h1
      · rcases List.mem_append.mp h1 with h2 | h2
        · rcases List.mem_append.mp h2 with h3 | h3
          · exact Or.inr (Or.inl (sgnStr_chars h3))
          · exact Or.inl (natStr_isDigit h3)
        · right; right; right
          simpa using h2
      · exact Or.inl (natStr_isDigit h1)

theorem reservedSentinels_not_numericString {s : String}
    (h : ∀ c ∈ s.data, c.isDigit = true ∨ c = '-' ∨ c = '.' ∨ c = '/') :
    reservedSentinels.contains s = false := by
  cases hc : reservedSentinels.contains s
  · rfl
  · exfalso
    have hmem : s ∈ reservedSentinels := by simpa using hc
    simp only [reservedSentinels, List.mem_cons, List.mem_singleton] at hmem
    rcases hmem with rfl | rfl | rfl | rfl | h0
    · exact absurd (h 'p' (by decide)) (by decide)
    · exact absurd (h 'a' (by decide)) (by decide)
    · exact absurd (h 'v' (by decide)) (by decide)
    · exact absurd (h 'q' (by decide)) (by decide)
    · simp at h0

theorem intStr_safe (i : ℤ) : reservedSentinels.contains (intStr i) = false :=
  reservedSentinels_not_numericString (fun _ hc => intStr_chars hc)

theorem floatStr_safe (q : ℚ) : reservedSentinels.contains (floatStr q) = false :=
  reservedSentinels_not_numericString (fun _ hc => floatStr_chars hc)

theorem numOutputStr_int_safe (n : ℤ) :
    reservedSentinels.contains (numOutputStr (.vInt n)) = false := intStr_safe n

theorem numOutputStr_float_safe (q : ℚ) :
    reservedSentinels.contains (numOutputStr (.vFloat q)) = false := by
  have he : numOutputStr (.vFloat q) = if q.den = 1 then intStr q.num else floatStr q := rfl
  rw [he]
  split
  · exact intStr_safe _
  · exact floatStr_safe _

theorem find?_safe {opts : List String}
    (hOpts : ∀ o ∈ opts, reservedSentinels.contains o = false)
    {p : String → Bool} {o : String} (h : opts.find? p = some o) :
    reservedSentinels.contains o = false :=
  hOpts o (List.mem_of_find?_eq_some h)

theorem numOptionMatch_safe {a : String} {options : Option (List String)}
    (ha : reservedSentinels.contains a = false)
    (hOpts : ∀ o ∈ options.getD [], reservedSentinels.contains o = false) :
    reservedSentinels.contains (numOptionMatch a options) = false := by
  cases options with
  | none => simpa [numOptionMatch] using ha
  | some opts =>
    cases h : opts.find? (fun opt => a = opt || pyIn a opt || opt.pyStartsWith a) with
    | none => simpa [numOptionMatch, h] using ha
    | some o => simpa [numOptionMatch, h] using find?_safe hOpts h

theorem strOptionMatch_safe {a : String} {options : Option (List String)}
    (ha : reservedSentinels.contains a = false)
    (hOpts : ∀ o ∈ options.getD [], reservedSentinels.contains o = false) :
    reservedSentinels.contains (strOptionMatch a options) = false := by
  cases options with
  | none => simpa [strOptionMatch] using ha
  | some opts =>
    cases h : opts.find? (fun opt => pyIn a.pyLower opt.pyLower || pyIn opt.pyLower a.pyLower)
      with
    | none => simpa [strOptionMatch, h] using ha
    | some o => simpa [strOptionMatch, h] using find?_safe hOpts h

theorem dfaLoop1_cons_none {options : Option (List String)} {st : ReasoningStep}
    {rest : List ReasoningStep} (h : st.tool_output = none) :
    dfaLoop1 options (st :: rest) = dfaLoop1 options rest := by
  simp only [dfaLoop1, h]

theorem dfaLoop1_cons_int {options : Option (List String)} {st : ReasoningStep}
    {rest : List ReasoningStep} {n : ℤ} (h : st.tool_output = some (.vInt n)) :
    dfaLoop1 options (st :: rest) = some (numOptionMatch (numOutputStr (.vInt n)) options) := by
  simp only [dfaLoop1, h]

theorem dfaLoop1_cons_float {options : Option (List String)} {st : ReasoningStep}
    {rest : List ReasoningStep} {q : ℚ} (h : st.tool_output = some (.vFloat q)) :
    dfaLoop1 options (st :: rest) =
      some (numOptionMatch (numOutputStr (.vFloat q)) options) := by
  simp only [dfaLoop1, h]

theorem dfaLoop1_cons_str_sentinel {options : Option (List String)} {st : ReasoningStep}
    {rest : List ReasoningStep} {s : String} (h : st.tool_output = some (.vStr s))
    (hc : dfaStatusStrings.contains s = true) :
    dfaLoop1 options (st :: rest) = dfaLoop1 options rest := by
  simp only [dfaLoop1, h]
  rw [hc]
  simp

theorem dfaLoop1_cons_str_keep {options : Option (List String)} {st : ReasoningStep}
    {rest : List ReasoningStep} {s : String} (h : st.tool_output = some (.vStr s))
    (hc : dfaStatusStrings.contains s = false) :
    dfaLoop1 options (st :: rest) = some (strOptionMatch s options) := by
  simp only [dfaLoop1, h]
  rw [hc]
  simp

theorem dfaLoop1_safe {options : Option (List String)}
    (hOpts : ∀ o ∈ options.getD [], reservedSentinels.contains o = false) :
    ∀ l : List ReasoningStep,
      (∀ st ∈ l, ∀ s, st.tool_output = some (.vStr s) →
        reservedSentinels.contains s = false) →
      (∃ st ∈ l, ∃ v, st.tool_output = some v ∧ truthyGenuine v = true) →
      ∃ a, dfaLoop1 options l = some a ∧ reservedSentinels.contains a = false := by
  intro l
  induction l with
  | nil => intro _ hGen; simp at hGen
  | cons st rest ih =>
    intro hOuts hGen
    cases hout : st.tool_output with
    | none =>
      have hGen2 : ∃ s2 ∈ rest, ∃ v, s2.tool_output = some v ∧ truthyGenuine v = true := by
        rcases hGen with ⟨s2, hmem, v, hv, hg⟩
        rcases List.mem_cons.mp hmem with rfl | hmem2
        · rw [hout] at hv; exact absurd hv (by simp)
        · exact ⟨s2, hmem2, v, hv, hg⟩
      rcases ih (fun s2 hm => hOuts s2 (List.mem_cons_of_mem _ hm)) hGen2 with ⟨a, ha, hsafe⟩
      exact ⟨a, (dfaLoop1_cons_none hout).trans ha, hsafe⟩
    | some v =>
      cases v with
      | vInt n =>
        exact ⟨numOptionMatch (numOutputStr (.vInt n)) options, dfaLoop1_cons_int hout,
          numOptionMatch_safe (numOutputStr_int_safe n) hOpts⟩
      | vFloat q =>
        exact ⟨numOptionMatch (numOutputStr (.vFloat q)) options, dfaLoop1_cons_float hout,
          numOptionMatch_safe (numOutputStr_float_safe q) hOpts⟩
      | vStr s =>
        cases hcs : dfaStatusStrings.contains s with
        | true =>
          have hGen2 : ∃ s2 ∈ rest, ∃ v, s2.tool_output = some v ∧ truthyGenuine v = true := by
            rcases hGen with ⟨s2, hmem, v, hv, hg⟩
            rcases List.mem_cons.mp hmem with rfl | hmem2
            · rw [hout] at hv
              cases hv
              have hmem3 : s ∈ dfaStatusStrings := by simpa using hcs
              simp [truthyGenuine] at hg
              exact absurd hmem3 hg.1.2
            · exact ⟨s2, hmem2, v, hv, hg⟩
          rcases ih (fun s2 hm => hOuts s2 (List.mem_cons_of_mem _ hm)) hGen2 with
            ⟨a, ha, hsafe⟩
          exact ⟨a, (dfaLoop1_cons_str_sentinel hout hcs).trans ha, hsafe⟩
        | false =>
          refine ⟨strOptionMatch s options, dfaLoop1_cons_str_keep hout hcs, ?_⟩
          exact strOptionMatch_safe (hOuts st (List.mem_cons_self _ _) s hout) hOpts

theorem truthyGenuine_of_falsy {v : PyVal} (h : pyValTruthy v = false) :
    truthyGenuine v = false := by
  cases v with
  | vInt n => simpa [pyValTruthy, truthyGenuine] using h
  | vFloat q => simpa [pyValTruthy, truthyGenuine] using h
  | vStr s =>
    simp [pyValTruthy] at h
    simp [truthyGenuine, h]

theorem suggestLoop1_cons_none {options : Option (List String)} {st : ReasoningStep}
    {rest : List ReasoningStep} (h : st.tool_output = none) :
    suggestLoop1 options (st :: rest) = suggestLoop1 options rest := by
  simp only [suggestLoop1, h]

theorem suggestLoop1_cons_falsy {options : Option (List String)} {st : ReasoningStep}
    {rest : List ReasoningStep} {v : PyVal} (h : st.tool_output = some v)
    (ht : pyValTruthy v = false) :
    suggestLoop1 options (st :: rest) = suggestLoop1 options rest := by
  simp only [suggestLoop1, h]
  rw [ht]
  simp

theorem suggestLoop1_cons_int_none {st : ReasoningStep} {rest : List ReasoningStep}
    {n : ℤ} (h : st.tool_output = some (.vInt n)) (ht : pyValTruthy (.vInt n) = true) :
    suggestLoop1 none (st :: rest) = some (pyValStr (.vInt n)) := by
  simp only [suggestLoop1, h]
  rw [ht]
  simp

theorem suggestLoop1_cons_int_opts {st : ReasoningStep} {rest : List ReasoningStep}
    {opts : List String} {n : ℤ} (h : st.tool_output = some (.vInt n))
    (ht : pyValTruthy (.vInt n) = true) :
    suggestLoop1 (some opts) (st :: rest) =
      match opts.find? (fun opt => pyIn (pyValStr (.vInt n)).pyLower opt.pyLower ||
          pyIn opt.pyLower (pyValStr (.vInt n)).pyLower) with
      | some opt => some opt
      | none => some (pyValStr (.vInt n)) := by
  simp only [suggestLoop1, h]
  rw [ht]
  simp

theorem suggestLoop1_cons_float_none {st : ReasoningStep} {rest : List ReasoningStep}
    {q : ℚ} (h : st.tool_output = some (.vFloat q)) (ht : pyValTruthy (.vFloat q) = true) :
    suggestLoop1 none (st :: rest) = some (pyValStr (.vFloat q)) := by
  simp only [suggestLoop1, h]
  rw [ht]
  simp

theorem suggestLoop1_cons_float_opts {st : ReasoningStep} {rest : List ReasoningStep}
    {opts : List String} {q : ℚ} (h : st.tool_output = some (.vFloat q))
    (ht : pyValTruthy (.vFloat q) = true) :
    suggestLoop1 (some opts) (st :: rest) =
      match opts.find? (fun opt => pyIn (pyValStr (.vFloat q)).pyLower opt.pyLower ||
          pyIn opt.pyLower (pyValStr (.vFloat q)).pyLower) with
      | some opt => some opt
      | none => some (pyValStr (.vFloat q)) := by
  simp only [suggestLoop1, h]
  rw [ht]
  simp

theorem suggestLoop1_cons_str_skip {options : Option (List String)} {st : ReasoningStep}
    {rest : List ReasoningStep} {s : String} (h : st.tool_output = some (.vStr s))
    (ht : pyValTruthy (.vStr s) = true)
    (hsk : (["processed", "calculated", "verified"].contains s.pyLower) = true) :
    suggestLoop1 options (st :: rest) = suggestLoop1 options rest := by
  simp only [suggestLoop1, h]
  rw [ht, hsk]
  simp

theorem suggestLoop1_cons_str_none {st : ReasoningStep} {rest : List ReasoningStep}
    {s : String} (h : st.tool_output = some (.vStr s))
    (ht : pyValTruthy (.vStr s) = true)
    (hsk : (["processed", "calculated", "verified"].contains s.pyLower) = false) :
    suggestLoop1 none (st :: rest) = some s := by
  simp only [suggestLoop1, h]
  rw [ht, hsk]
  simp

theorem suggestLoop1_cons_str_opts {st : ReasoningStep} {rest : List ReasoningStep}
    {opts : List String} {s : String} (h : st.tool_output = some (.vStr s))
    (ht : pyValTruthy (.vStr s) = true)
    (hsk : (["processed", "calculated", "verified"].contains s.pyLower) = false) :
    suggestLoop1 (some opts) (st :: rest) =
      match opts.find? (fun opt => pyIn s.pyLower opt.pyLower || pyIn opt.pyLower s.pyLower)
        with
      | some opt => some opt
      | none => some s := by
  simp only [suggestLoop1, h]
  rw [ht, hsk]
  simp

theorem suggestLoop1_safe {options : Option (List String)}
    (hOpts : ∀ o ∈ options.getD [], reservedSentinels.contains o = false) :
    ∀ l : List ReasoningStep,
      (∀ st ∈ l, ∀ s, st.tool_output = some (.vStr s) →
        reservedSentinels.contains s = false) →
      (∃ st ∈ l, ∃ v, st.tool_output = some v ∧ truthyGenuine v = true) →
      ∃ a, suggestLoop1 options l = some a ∧ reservedSentinels.contains a = false := by
  intro l
  induction l with
  | nil => intro _ hGen; simp at hGen
  | cons st rest ih =>
    intro hOuts hGen
    have tailCase :
        (st.tool_output = none ∨ ∃ v, st.tool_output = some v ∧ truthyGenuine v = false) →
        ∃ s2 ∈ rest, ∃ v, s2.tool_output = some v ∧ truthyGenuine v = true := by
      intro hst
      rcases hGen with ⟨s2, hmem, v, hv, hg⟩
      rcases List.mem_cons.mp hmem with rfl | hmem2
      · rcases hst with h0 | ⟨v2, hv2, hg2⟩
        · rw [h0] at hv; exact absurd hv (by simp)
        · rw [hv2] at hv; cases hv; rw [hg] at hg2; cases hg2
      · exact ⟨s2, hmem2, v, hv, hg⟩
    have ihTail := ih (fun s2 hm => hOuts s2 (List.mem_cons_of_mem _ hm))
    cases hout : st.tool_output with
    | none =>
      rcases ihTail (tailCase (Or.inl hout)) with ⟨a, ha, hsafe⟩
      exact ⟨a, (suggestLoop1_cons_none hout).trans ha, hsafe⟩
    | some v =>
      cases htr : pyValTruthy v with
      | false =>
        rcases ihTail (tailCase (Or.inr ⟨v, hout, truthyGenuine_of_falsy htr⟩)) with
          ⟨a, ha, hsafe⟩
        exact ⟨a, (suggestLoop1_cons_falsy hout htr).trans ha, hsafe⟩
      | true =>
        cases v with
        | vInt n =>
          cases options with
          | none => exact ⟨intStr n, suggestLoop1_cons_int_none hout htr, intStr_safe n⟩
          | some opts =>
            cases hf : opts.find? (fun opt =>
                pyIn (pyValStr (.vInt n)).pyLower opt.pyLower ||
                pyIn opt.pyLower (pyValStr (.vInt n)).pyLower) with
            | some o =>
              refine ⟨o, ?_, find?_safe hOpts hf⟩
              rw [suggestLoop1_cons_int_opts hout htr, hf]
            | none =>
              refine ⟨intStr n, ?_, intStr_safe n⟩
              rw [suggestLoop1_cons_int_opts hout htr, hf]
              rfl
        | vFloat q =>
          cases options with
          | none => exact ⟨floatStr q, suggestLoop1_cons_float_none hout htr, floatStr_safe q⟩
          | some opts =>
            cases hf : opts.find? (fun opt =>
                pyIn (pyValStr (.vFloat q)).pyLower opt.pyLower ||
                pyIn opt.pyLower (pyValStr (.vFloat q)).pyLower) with
            | some o =>
              refine ⟨o, ?_, find?_safe hOpts hf⟩
              rw [suggestLoop1_cons_float_opts hout htr, hf]
            | none =>
              refine ⟨floatStr q, ?_, floatStr_safe q⟩
              rw [suggestLoop1_cons_float_opts hout htr, hf]
              rfl
        | vStr s =>
          cases hsk : (["processed", "calculated", "verified"].contains s.pyLower) with
          | true =>
            have hgenF : truthyGenuine (.vStr s) = false := by
              have he : truthyGenuine (.vStr s) =
                  (s ≠ "" && !dfaStatusStrings.contains s &&
                    !(["processed", "calculated", "verified"].contains s.pyLower)) := rfl
              rw [he, hsk]
              simp
            rcases ihTail (tailCase (Or.inr ⟨_, hout, hgenF⟩)) with ⟨a, ha, hsafe⟩
            exact ⟨a, (suggestLoop1_cons_str_skip hout htr hsk).trans ha, hsafe⟩
          | false =>
            have hsSafe := hOuts st (List.mem_cons_self _ _) s hout
            cases options with
            | none => exact ⟨s, suggestLoop1_cons_str_none hout htr hsk, hsSafe⟩
            | some opts =>
              cases hf : opts.find? (fun opt =>
                  pyIn s.pyLower opt.pyLower || pyIn opt.pyLower s.pyLower) with
              | some o =>
                refine ⟨o, ?_, find?_safe hOpts hf⟩
                rw [suggestLoop1_cons_str_opts hout htr hsk, hf]
              | none =>
                refine ⟨s, ?_, hsSafe⟩
                rw [suggestLoop1_cons_str_opts hout htr hsk, hf]

theorem refine_answer_safe {p : String} {options : Option (List String)}
    (hp : reservedSentinels.contains p = false)
    (hOpts : ∀ o ∈ options.getD [], reservedSentinels.contains o = false) :
    reservedSentinels.contains (refine_answer p options) = false := by
  cases options with
  | none => simpa [refine_answer] using hp
  | some l =>
    cases l with
    | nil => simpa [refine_answer] using hp
    | cons o os =>
      simp only [refine_answer]
      split
      next opt heq => exact find?_safe hOpts heq
      next =>
        split
        next opt heq => exact find?_safe hOpts heq
        next =>
          split
          next opt heq => exact find?_safe hOpts heq
          next =>
            split
            next opt heq =>
              rcases hov : (if !refineStatusStrings.contains p then
                  (o :: os).find? (fun opt =>
                    (pyWords opt.pyLower).any (fun w => (pyWords p.pyLower).contains w))
                else none) with _ | o2
              · rw [hov] at heq; cases heq
              · rw [hov] at heq
                cases heq
                split at hov
                · exact find?_safe hOpts hov
                · cases hov
            next =>
              split
              · decide
              · exact hp

theorem self_correct_safe (problem : String) {pre : String} {steps : List ReasoningStep}
    {options : Option (List String)}
    (hpre : reservedSentinels.contains pre = false)
    (hOpts : ∀ o ∈ options.getD [], reservedSentinels.contains o = false)
    (hOuts : ∀ st ∈ steps, ∀ s, st.tool_output = some (.vStr s) →
      reservedSentinels.contains s = false)
    (hGen : ∃ st ∈ steps, ∃ v, st.tool_output = some v ∧ truthyGenuine v = true) :
    reservedSentinels.contains (self_correct pre problem steps options).1 = false := by
  cases hv : (validate_result pre problem options).1 with
  | true => simpa [self_correct, hv] using hpre
  | false =>
    have hrevOuts : ∀ st ∈ steps.reverse, ∀ s, st.tool_output = some (.vStr s) →
        reservedSentinels.contains s = false :=
      fun st hm => hOuts st (List.mem_reverse.mp hm)
    have hrevGen : ∃ st ∈ steps.reverse, ∃ v, st.tool_output = some v ∧
        truthyGenuine v = true := by
      rcases hGen with ⟨st, hm, v, hvv, hg⟩
      exact ⟨st, List.mem_reverse.mpr hm, v, hvv, hg⟩
    rcases suggestLoop1_safe hOpts steps.reverse hrevOuts hrevGen with ⟨s, hs, hsafe⟩
    have hsug : suggest_correction steps options = some s := by
      simp [suggest_correction, hs]
    simp only [self_correct, hv, hsug, Bool.false_eq_true, if_false]
    split
    · exact hsafe
    · exact hpre

theorem execSteps_length (h : HandlerFun) (problem : String)
    (options : Option (List String)) :
    ∀ (subs : List String) (n : ℕ), (execSteps h problem options n subs).length = subs.length
    := by
  intro subs
  induction subs with
  | nil => intro n; rfl
  | cons s rest ih => intro n; simp [execSteps, ih (n + 1)]

theorem execSteps_get? (h : HandlerFun) (problem : String)
    (options : Option (List String)) :
    ∀ (subs : List String) (n i : ℕ) (hi : i < subs.length),
      (execSteps h problem options n subs).get? i =
        some (execute_sub_problem h (n + i) (subs.get ⟨i, hi⟩) problem options) := by
  intro subs
  induction subs with
  | nil => intro n i hi; simp at hi
  | cons s rest ih =>
    intro n i hi
    cases i with
    | zero => simp [execSteps]
    | succ j =>
      have hj : j < rest.length := by simpa using hi
      have := ih (n + 1) j hj
      simp only [execSteps, List.get?_cons_succ]
      rw [this]
      have harith : n + 1 + j = n + (j + 1) := by omega
      rw [harith]
      rfl

theorem execute_plan_steps (h : HandlerFun) (problem : String) (plan : ReasoningPlan)
    (options : Option (List String)) :
    (execute_plan h problem plan options).steps =
      (if (self_correct (determine_final_answer
            ⟨problem, plan, execSteps h problem options 1 plan.sub_problems, none, 0⟩ options)
            problem (execSteps h problem options 1 plan.sub_problems) options).1 ≠
          determine_final_answer
            ⟨problem, plan, execSteps h problem options 1 plan.sub_problems, none, 0⟩ options
        then
          execSteps h problem options 1 plan.sub_problems ++
            [correctionStep ((execSteps h problem options 1 plan.sub_problems).length + 1)
              (self_correct (determine_final_answer
                ⟨problem, plan, execSteps h problem options 1 plan.sub_problems, none, 0⟩
                options) problem (execSteps h problem options 1 plan.sub_problems) options).1
              (self_correct (determine_final_answer
                ⟨problem, plan, execSteps h problem options 1 plan.sub_problems, none, 0⟩
                options) problem (execSteps h problem options 1 plan.sub_problems)
                options).2.1
              (self_correct (determine_final_answer
                ⟨problem, plan, execSteps h problem options 1 plan.sub_problems, none, 0⟩
                options) problem (execSteps h problem options 1 plan.sub_problems)
                options).2.2]
        else execSteps h problem options 1 plan.sub_problems) := rfl

theorem execute_plan_final_answer (h : HandlerFun) (problem : String) (plan : ReasoningPlan)
    (options : Option (List String)) :
    (execute_plan h problem plan options).final_answer =
      some (self_correct (determine_final_answer
          ⟨problem, plan, execSteps h problem options 1 plan.sub_problems, none, 0⟩ options)
        problem (execSteps h problem options 1 plan.sub_problems) options).1 := rfl

theorem execute_plan_overall (h : HandlerFun) (problem : String) (plan : ReasoningPlan)
    (options : Option (List String)) :
    (execute_plan h problem plan options).overall_confidence =
      calculate_confidence (self_correct (determine_final_answer
          ⟨problem, plan, execSteps h problem options 1 plan.sub_problems, none, 0⟩ options)
        problem (execSteps h problem options 1 plan.sub_problems) options).1 problem
        (execSteps h problem options 1 plan.sub_problems) := rfl

theorem dfaLoop1_find? (options : Option (List String)) :
    ∀ (l : List ReasoningStep) (st : ReasoningStep),
      l.find? stepUsable = some st → ∀ v, st.tool_output = some v →
      dfaLoop1 options l = some (answerFromVal v options) := by
  intro l
  induction l with
  | nil => intro st hfind; simp at hfind
  | cons s rest ih =>
    intro st hfind v hv
    cases hu : stepUsable s with
    | true =>
      rw [List.find?_cons_of_pos _ hu] at hfind
      cases hfind
      cases v with
      | vInt n => rw [dfaLoop1_cons_int hv]; rfl
      | vFloat q => rw [dfaLoop1_cons_float hv]; rfl
      | vStr t =>
        have hc : dfaStatusStrings.contains t = false := by
          have := hu
          simp only [stepUsable, hv] at this
          simpa using this
        rw [dfaLoop1_cons_str_keep hv hc]
        rfl
    | false =>
      rw [List.find?_cons_of_neg _ (by simp [hu])] at hfind
      cases hout : s.tool_output with
      | none => rw [dfaLoop1_cons_none hout]; exact ih st hfind v hv
      | some w =>
        cases w with
        | vInt n => simp [stepUsable, hout] at hu
        | vFloat q => simp [stepUsable, hout] at hu
        | vStr t =>
          have hc : dfaStatusStrings.contains t = true := by
            have := hu
            simp only [stepUsable, hout] at this
            simpa using this
          rw [dfaLoop1_cons_str_sentinel hout hc]
          exact ih st hfind v hv

/-! ## Claim theorems -/

/-- C5: the Self-Corrector's confidence is always clamped to the closed
interval from 0.1 to 0.95, and since execute_plan stores that value as the
chain's overall confidence, every completed chain has overall confidence in
the unit interval. -/
theorem c5_confidence_bounds :
    (∀ (result problem : String) (steps : List ReasoningStep),
      1/10 ≤ calculate_confidence result problem steps ∧
        calculate_confidence result problem steps ≤ 19/20) ∧
    (∀ (h : HandlerFun) (problem : String) (plan : ReasoningPlan)
        (options : Option (List String)),
      0 ≤ (execute_plan h problem plan options).overall_confidence ∧
        (execute_plan h problem plan options).overall_confidence ≤ 1) := by
  have hcc : ∀ (result problem : String) (steps : List ReasoningStep),
      1/10 ≤ calculate_confidence result problem steps ∧
        calculate_confidence result problem steps ≤ 19/20 := by
    intro r p s
    unfold calculate_confidence
    constructor
    · exact le_max_left _ _
    · exact max_le (by norm_num) (min_le_left _ _)
  refine ⟨hcc, ?_⟩
  intro h p plan o
  rw [execute_plan_overall]
  rcases hcc (self_correct (determine_final_answer
      ⟨p, plan, execSteps h p o 1 plan.sub_problems, none, 0⟩ o) p
      (execSteps h p o 1 plan.sub_problems) o).1 p (execSteps h p o 1 plan.sub_problems)
    with ⟨h1, h2⟩
  exact ⟨le_trans (by norm_num) h1, le_trans h2 (by norm_num)⟩

/-- C7: a handler exception never aborts the chain: the failing sub-problem
still yields its (partially mutated) step with confidence 0.1 and an error
thought, and every sub-problem of the plan still yields a step. -/
theorem c7_step_failure_is_local (h : HandlerFun) (problem : String)
    (plan : ReasoningPlan) (options : Option (List String)) (i : ℕ) (msg : String)
    (sMut : ReasoningStep) (hi : i < plan.sub_problems.length)
    (herr : h problem (plan.sub_problems.get ⟨i, hi⟩) options
        (initStep (i + 1) (plan.sub_problems.get ⟨i, hi⟩)) = Except.error (msg, sMut)) :
    plan.sub_problems.length ≤ (execute_plan h problem plan options).steps.length ∧
    (execute_plan h problem plan options).steps.get? i =
      some { sMut with thought := "Error executing step: " ++ msg, confidence := 1/10 } ∧
    ∀ j, j < plan.sub_problems.length →
      ∃ st, (execute_plan h problem plan options).steps.get? j = some st := by
  have hlen0 := execSteps_length h problem options plan.sub_problems 1
  have hget : ∀ j (hj : j < plan.sub_problems.length),
      (execute_plan h problem plan options).steps.get? j =
        some (execute_sub_problem h (1 + j) (plan.sub_problems.get ⟨j, hj⟩) problem
          options) := by
    intro j hj
    rw [execute_plan_steps]
    split
    · rw [List.get?_append (by rw [hlen0]; exact hj)]
      exact execSteps_get? h problem options plan.sub_problems 1 j hj
    · exact execSteps_get? h problem options plan.sub_problems 1 j hj
  refine ⟨?_, ?_, ?_⟩
  · rw [execute_plan_steps]
    split
    · rw [List.length_append, hlen0]; omega
    · rw [hlen0]
  · rw [hget i hi]
    have : execute_sub_problem h (1 + i) (plan.sub_problems.get ⟨i, hi⟩) problem options =
        { sMut with thought := "Error executing step: " ++ msg, confidence := 1/10 } := by
      have harith : 1 + i = i + 1 := by omega
      rw [harith]
      unfold execute_sub_problem
      rw [herr]
    rw [this]
  · intro j hj
    exact ⟨_, hget j hj⟩

/-- C7 witness at a concrete plan and an always-raising handler. -/
theorem c7_step_failure_is_local_witness :
    ((create_plan "p" none).sub_problems.length ≤
      (execute_plan failHandler "p" (create_plan "p" none) none).steps.length) ∧
    ((execute_plan failHandler "p" (create_plan "p" none) none).steps.get? 1 =
      some { initStep 2 ((create_plan "p" none).sub_problems.get ⟨1, by decide⟩) with
             thought := "Error executing step: boom", confidence := 1/10 }) :=
  ⟨(c7_step_failure_is_local failHandler "p" (create_plan "p" none) none 1 "boom"
      (initStep 2 ((create_plan "p" none).sub_problems.get ⟨1, by decide⟩))
      (by decide) rfl).1,
   (c7_step_failure_is_local failHandler "p" (create_plan "p" none) none 1 "boom"
      (initStep 2 ((create_plan "p" none).sub_problems.get ⟨1, by decide⟩))
      (by decide) rfl).2.1⟩

/-- C8: a chain has exactly one step per sub-problem, plus exactly one extra
synthetic step precisely when the self-corrected answer differs from the
preliminary one. -/
theorem c8_step_count (h : HandlerFun) (problem : String) (plan : ReasoningPlan)
    (options : Option (List String)) :
    ((execute_plan h problem plan options).steps.length = plan.sub_problems.length ∨
     (execute_plan h problem plan options).steps.length = plan.sub_problems.length + 1) ∧
    ((execute_plan h problem plan options).steps.length = plan.sub_problems.length + 1 ↔
      (self_correct (determine_final_answer
          ⟨problem, plan, execSteps h problem options 1 plan.sub_problems, none, 0⟩ options)
        problem (execSteps h problem options 1 plan.sub_problems) options).1 ≠
      determine_final_answer
        ⟨problem, plan, execSteps h problem options 1 plan.sub_problems, none, 0⟩ options)
    := by
  have hlen0 := execSteps_length h problem options plan.sub_problems 1
  rw [execute_plan_steps]
  split
  next hc =>
    constructor
    · right; rw [List.length_append, hlen0]; rfl
    · constructor
      · intro _; exact hc
      · intro _; rw [List.length_append, hlen0]; rfl
  next hc =>
    constructor
    · left; exact hlen0
    · constructor
      · intro hlen; exfalso; rw [hlen0] at hlen; omega
      · intro hne; exact absurd hne hc

/-- C10: with a deterministic solver pool, a second solve of the same triple
on the same instance returns the same answer and step count, and the result
does not depend on the cache contents at all (the cache is written, never
read). -/
theorem c10_idempotent_cache_independent (h : HandlerFun)
    (cache cache2 : List (String × SolutionResult)) (problem : String)
    (topic : Option String) (options : Option (List String)) :
    ((solve h cache problem topic options).2.answer =
      (solve h (solve h cache problem topic options).1 problem topic options).2.answer) ∧
    ((solve h cache problem topic options).2.reasoning_chain.steps.length =
      (solve h (solve h cache problem topic options).1 problem topic
        options).2.reasoning_chain.steps.length) ∧
    (solve h cache problem topic options).2 = (solve h cache2 problem topic options).2 :=
  ⟨rfl, rfl, rfl⟩

/-- C3 (as amended): the synthesizer's first priority is one single
most-recent-first scan; the first step whose solver output is non-null and
either numeric or a non-sentinel string decides the preliminary answer
(integral floats rendered without a trailing .0 and matched against options
by equality, containment or prefix; strings by case-insensitive substring in
either direction).  In particular a string output in a later step wins over a
numeric output in an earlier step. -/
theorem c3_synthesizer_single_scan (chain : ReasoningChain)
    (options : Option (List String)) (st : ReasoningStep) (v : PyVal)
    (hfind : chain.steps.reverse.find? stepUsable = some st)
    (hv : st.tool_output = some v) :
    determine_final_answer chain options = answerFromVal v options := by
  have h1 := dfaLoop1_find? options chain.steps.reverse st hfind v hv
  simp [determine_final_answer, h1]

/-- C3 witness: on a chain whose most recent usable output is the string
"blue", the synthesizer returns exactly the answer derived from it. -/
theorem c3_synthesizer_single_scan_witness :
    determine_final_answer c3chain none = answerFromVal (.vStr "blue") none :=
  c3_synthesizer_single_scan c3chain none c3staleStep (.vStr "blue") (by decide) (by decide)

/-- C3 counterexample to the claim as stated: the first (earlier) step holds
the numeric output 7, yet the preliminary answer is "blue" from the later
string-valued step, so numeric outputs are not consulted before string
outputs. -/
theorem c3_counterexample :
    determine_final_answer c3chain none = "blue" ∧
    (c3chain.steps.get? 0).map (fun s => s.tool_output) = some (some (.vInt 7)) ∧
    numOutputStr (.vInt 7) = "7" ∧ "blue" ≠ "7" := by decide

theorem determine_final_answer_safe {chain : ReasoningChain}
    {options : Option (List String)}
    (hOpts : ∀ o ∈ options.getD [], reservedSentinels.contains o = false)
    (hOuts : ∀ st ∈ chain.steps, ∀ s, st.tool_output = some (.vStr s) →
      reservedSentinels.contains s = false)
    (hGen : ∃ st ∈ chain.steps, ∃ v, st.tool_output = some v ∧ truthyGenuine v = true) :
    reservedSentinels.contains (determine_final_answer chain options) = false := by
  have hrevOuts : ∀ st ∈ chain.steps.reverse, ∀ s, st.tool_output = some (.vStr s) →
      reservedSentinels.contains s = false :=
    fun st hm => hOuts st (List.mem_reverse.mp hm)
  have hrevGen : ∃ st ∈ chain.steps.reverse, ∃ v, st.tool_output = some v ∧
      truthyGenuine v = true := by
    rcases hGen with ⟨st, hm, v, hv, hg⟩
    exact ⟨st, List.mem_reverse.mpr hm, v, hv, hg⟩
  rcases dfaLoop1_safe hOpts chain.steps.reverse hrevOuts hrevGen with ⟨a, ha, hsafe⟩
  simpa [determine_final_answer, ha] using hsafe

/-- C1 (as amended): provided at least one step records a truthy genuine
(non-sentinel) solver output, no recorded string output equals one of the
reserved sentinels, and no supplied option equals one of them, neither the
answer stored in the chain nor the reconciled answer returned to the caller
is one of the reserved status sentinels. -/
theorem c1_final_answer_never_sentinel (h : HandlerFun) (problem : String)
    (plan : ReasoningPlan) (options : Option (List String))
    (hOpts : ∀ o ∈ options.getD [], reservedSentinels.contains o = false)
    (hOuts : ∀ st ∈ execSteps h problem options 1 plan.sub_problems,
        strOutputSafe st = true)
    (hGen : ∃ st ∈ execSteps h problem options 1 plan.sub_problems,
        stepTruthyGenuine st = true) :
    reservedSentinels.contains
        ((execute_plan h problem plan options).final_answer.getD "") = false ∧
    reservedSentinels.contains
        (refine_answer ((execute_plan h problem plan options).final_answer.getD "")
          options) = false := by
  have hOuts2 : ∀ st ∈ execSteps h problem options 1 plan.sub_problems, ∀ s,
      st.tool_output = some (.vStr s) → reservedSentinels.contains s = false := by
    intro st hm s hs
    have := hOuts st hm
    rw [strOutputSafe, hs] at this
    simpa using this
  have hGen2 : ∃ st ∈ execSteps h problem options 1 plan.sub_problems, ∃ v,
      st.tool_output = some v ∧ truthyGenuine v = true := by
    rcases hGen with ⟨st, hm, hg⟩
    cases hout : st.tool_output with
    | none => rw [stepTruthyGenuine, hout] at hg; cases hg
    | some v =>
      rw [stepTruthyGenuine, hout] at hg
      exact ⟨st, hm, v, hout, hg⟩
  have hpre : reservedSentinels.contains (determine_final_answer
      ⟨problem, plan, execSteps h problem options 1 plan.sub_problems, none, 0⟩ options)
      = false :=
    determine_final_answer_safe hOpts hOuts2 hGen2
  have hcorr := self_correct_safe problem hpre hOpts hOuts2 hGen2
  rw [execute_plan_final_answer]
  exact ⟨hcorr, refine_answer_safe hcorr hOpts⟩

/-- C1 witness: a solver pool recording the genuine numeric output 5, an
option list without sentinels. -/
theorem c1_final_answer_never_sentinel_witness :
    reservedSentinels.contains
        ((execute_plan intFiveHandler "x" (create_plan "x" none)
          (some ["5 units"])).final_answer.getD "") = false ∧
    reservedSentinels.contains
        (refine_answer ((execute_plan intFiveHandler "x" (create_plan "x" none)
          (some ["5 units"])).final_answer.getD "") (some ["5 units"])) = false :=
  c1_final_answer_never_sentinel intFiveHandler "x" (create_plan "x" none)
    (some ["5 units"]) (by decide) (by decide) (by decide)

/-- C1 counterexample to the claim as stated: a solve invocation whose every
step records the genuine, non-sentinel output "proc" returns the reserved
sentinel "processed" both in the stored chain and to the caller, because the
option list contains that string and all three components map answers onto
options by substring matching. -/
theorem c1_counterexample :
    (solve procHandler [] "x" none (some ["processed"])).2.answer = "processed" ∧
    (solve procHandler [] "x" none (some ["processed"])).2.reasoning_chain.final_answer =
      some "processed" ∧
    reservedSentinels.contains "processed" = true ∧
    truthyGenuine (.vStr "proc") = true ∧
    (solve procHandler [] "x" none (some ["processed"])).2.reasoning_chain.steps.any
      (fun st => st.tool_output = some (.vStr "proc")) = true := by decide

theorem find?_congrB {α : Type} {p q : α → Bool} (h : ∀ a, p a = q a) :
    ∀ l : List α, l.find? p = l.find? q := by
  intro l
  induction l with
  | nil => rfl
  | cons a t ih =>
    simp only [List.find?]
    rw [h a]
    cases q a
    · exact ih
    · rfl

theorem wordOverlap_any (p opt : String) :
    decide (0 < wordOverlapCount p opt) =
      (pyWords opt.pyLower).any (fun w => (pyWords p.pyLower).contains w) := by
  have hiff : 0 < wordOverlapCount p opt ↔
      ((pyWords opt.pyLower).any (fun w => (pyWords p.pyLower).contains w) = true) := by
    simp [wordOverlapCount, List.length_pos_iff_exists_mem, List.mem_filter,
      List.mem_dedup, List.any_eq_true]
  by_cases h : 0 < wordOverlapCount p opt
  · rw [decide_eq_true h]
    exact (hiff.mp h).symm
  · rw [decide_eq_false h]
    cases hA : (pyWords opt.pyLower).any (fun w => (pyWords p.pyLower).contains w) with
    | true => exact absurd (hiff.mpr hA) h
    | false => rfl

/-- C2 (as amended): the reconciliation cascade runs exact case-insensitive
match, answer-in-option, option-in-answer, then — for a non-sentinel answer —
the FIRST option (in list order) sharing ANY word with the answer (not the
one with the largest overlap), then the "none of the above" fallback for
sentinel-like answers, else the answer unchanged. -/
theorem c2_refine_cascade (p : String) (opts : List String) (hne : opts ≠ []) :
    refine_answer p (some opts) = refineSpecAmended p opts := by
  match opts, hne with
  | o :: os, _ =>
    have hovl : (o :: os).find? (fun opt => decide (0 < wordOverlapCount p opt)) =
        (o :: os).find? (fun opt =>
          (pyWords opt.pyLower).any (fun w => (pyWords p.pyLower).contains w)) :=
      find?_congrB (fun a => wordOverlap_any p a) _
    simp only [refine_answer, refineSpecAmended, firstHit]
    cases h1 : (o :: os).find? (fun opt => p.pyLower.pyTrim = opt.pyLower.pyTrim) with
    | some a => simp [List.findSome?, h1]
    | none =>
      cases h2 : (o :: os).find? (fun opt => pyIn p.pyLower opt.pyLower) with
      | some a => simp [List.findSome?, h1, h2]
      | none =>
        cases h3 : (o :: os).find? (fun opt => pyIn opt.pyLower p.pyLower) with
        | some a => simp [List.findSome?, h1, h2, h3]
        | none =>
          cases hst : refineStatusStrings.contains p with
          | true =>
            simp [List.findSome?, h1, h2, h3, hst]
            by_cases hA : "Another answer" = o ∨ "Another answer" ∈ os <;> simp [hA]
          | false =>
            cases h4 : (o :: os).find? (fun opt =>
                (pyWords opt.pyLower).any (fun w => (pyWords p.pyLower).contains w)) with
            | some a =>
              have h4s : (o :: os).find?
                  (fun opt => decide (0 < wordOverlapCount p opt)) = some a :=
                hovl.trans h4
              simp [List.findSome?, h1, h2, h3, hst, h4, h4s]
            | none =>
              have h4s : (o :: os).find?
                  (fun opt => decide (0 < wordOverlapCount p opt)) = none :=
                hovl.trans h4
              simp [List.findSome?, h1, h2, h3, hst, h4, h4s]
              by_cases hA : (p = "" ∨ p = "Unable to determine answer") ∧
                  ("Another answer" = o ∨ "Another answer" ∈ os) <;> simp [hA]

/-- C2 witness at a concrete answer and option list. -/
theorem c2_refine_cascade_witness :
    refine_answer "cat" (some ["dog"]) = refineSpecAmended "cat" ["dog"] :=
  c2_refine_cascade "cat" ["dog"] (by decide)

/-- C2 counterexample to the claim as stated: with no exact or substring
match, the code returns the first option sharing any word ("gamma alpha",
overlap 1) although a strictly larger overlap exists ("alpha beta delta",
overlap 2), which the claim's largest-overlap cascade would return. -/
theorem c2_counterexample :
    refine_answer "beta alpha" (some ["gamma alpha", "alpha beta delta"]) = "gamma alpha" ∧
    refineSpecClaim "beta alpha" ["gamma alpha", "alpha beta delta"] = "alpha beta delta" ∧
    wordOverlapCount "beta alpha" "gamma alpha" = 1 ∧
    wordOverlapCount "beta alpha" "alpha beta delta" = 2 ∧
    "gamma alpha" ≠ "alpha beta delta" := by decide

/-- C4 (as amended): validation judges an answer valid iff it is non-empty,
not a status sentinel, and then EITHER it matches a supplied option exactly or
by substring in either direction (an option match shields the numeric checks
entirely) OR its first number has magnitude at most 1,000,000 and respects the
percentage bound; the numeric bounds are never applied to an option-matched
answer. -/
theorem c4_numeric_leaf (num : ℚ) (a b : Bool) (s1 s2 : String) :
    (if 1000000 < |num| then ((false : Bool), (some s1 : Option String))
     else if (a || b) && 100 < num then (false, some s2)
     else (true, none)).1
    = (decide (|num| ≤ 1000000) && !((a || b) && decide (100 < num))) := by
  by_cases hbig : (1000000 : ℚ) < |num|
  · simp [hbig, not_le.mpr hbig]
  · by_cases hlt : (100 : ℚ) < num
    · cases a <;> cases b <;> simp [hbig, not_lt.mp hbig, hlt]
    · cases a <;> cases b <;> simp [hbig, not_lt.mp hbig, hlt]

theorem c4_numeric_leaf_match (result problem : String) :
    (match (scanAll mNumLoose result).map (fun t => String.mk t) with
      | tok :: _ =>
        if 1000000 < |pyFloatTok tok| then
          ((false : Bool),
           (some ("Unreasonably large number: " ++ floatStr (pyFloatTok tok)) : Option String))
        else if (pyIn "percentage" problem.pyLower || pyIn "%" problem) &&
            100 < pyFloatTok tok then
          (false, some ("Percentage > 100%: " ++ floatStr (pyFloatTok tok)))
        else (true, none)
      | [] => (true, none)).1 =
    (match (scanAll mNumLoose result).map (fun t => String.mk t) with
      | tok :: _ =>
        decide (|pyFloatTok tok| ≤ 1000000) &&
          !((pyIn "percentage" problem.pyLower || pyIn "%" problem) &&
            decide (100 < pyFloatTok tok))
      | [] => true) := by
  cases (scanAll mNumLoose result).map (fun t => String.mk t) with
  | nil => rfl
  | cons tok rest =>
    exact c4_numeric_leaf (pyFloatTok tok) (pyIn "percentage" problem.pyLower)
      (pyIn "%" problem) _ _

theorem c4_validation_matches_amended (result problem : String)
    (options : Option (List String)) :
    (validate_result result problem options).1 = validateSpec result problem options := by
  by_cases h0 : result = ""
  · simp [validate_result, validateSpec, h0]
  · cases hs : validateStatusStrings.contains result.pyLower.pyTrim with
    | true =>
      have hsm : result.pyLower.pyTrim ∈ validateStatusStrings := by simpa using hs
      simp [validate_result, validateSpec, h0, hsm]
    | false =>
      have hsm : result.pyLower.pyTrim ∉ validateStatusStrings := by simpa using hs
      have hsn : ¬(validateStatusStrings.contains result.pyLower.pyTrim = true) := by
        simpa using hs
      cases options with
      | none =>
        simp only [validate_result, validateSpec, if_neg h0, if_neg hsn,
          Option.getD_none, List.any_nil, Bool.false_or]
        rw [c4_numeric_leaf_match]
        simp [h0, hsm]
      | some opts =>
        cases hE : opts.find? (fun opt => result.pyTrim = opt.pyTrim) with
        | some o =>
          have hmem := List.mem_of_find?_eq_some hE
          have ho := List.find?_some hE
          have heq : result.pyTrim = o.pyTrim := by simpa using ho
          simp [validate_result, validateSpec, h0, hsm, hE]
          exact Or.inl ⟨o, hmem, Or.inl (Or.inl heq)⟩
        | none =>
          cases hP : opts.find? (fun opt =>
              pyIn result.pyLower opt.pyLower || pyIn opt.pyLower result.pyLower) with
          | some o =>
            have hmem := List.mem_of_find?_eq_some hP
            have ho := List.find?_some hP
            have ho2 : pyIn result.pyLower o.pyLower = true ∨
                pyIn o.pyLower result.pyLower = true := by simpa using ho
            simp [validate_result, validateSpec, h0, hsm, hE, hP]
            rcases ho2 with h | h
            · exact Or.inl ⟨o, hmem, Or.inl (Or.inr h)⟩
            · exact Or.inl ⟨o, hmem, Or.inr h⟩
          | none =>
            have hall := List.find?_eq_none.mp hE
            have hallP := List.find?_eq_none.mp hP
            simp only [validate_result, validateSpec, if_neg h0, if_neg hsn, hE, hP,
              Option.getD_some]
            rw [c4_numeric_leaf_match]
            simp [h0, hsm]
            intro x hx hpx
            have h1 := hall x hx
            have h2 := hallP x hx
            simp at h1 h2
            rcases hpx with (heq | hin1) | hin2
            · exact absurd heq h1
            · exact absurd hin1 (by simp [h2.1])
            · exact absurd hin2 (by simp [h2.2])

/-- C4 counterexample to the claim as stated: the answer "2000000" textually
matches a supplied option, its first (and only) number exceeds 1,000,000, yet
validation judges it VALID — the option match is checked before, and shields,
the magnitude bound; without the option the same answer is judged invalid. -/
theorem c4_counterexample :
    (validate_result "2000000" "" (some ["2000000"])).1 = true ∧
    (scanAll mNumLoose "2000000").map (fun t => String.mk t) = ["2000000"] ∧
    (1000000 : ℚ) < |pyFloatTok "2000000"| ∧
    (validate_result "2000000" "" none).1 = false := by decide

theorem c6_flatten_nil (chain : ReasoningChain)
    (h : chain.steps.any (fun s => (verify_step s).issues ≠ []) = false) :
    ((chain.steps.map verify_step).map (fun r => r.issues)).flatten = [] := by
  rw [List.flatten_eq_nil_iff]
  intro l hl
  rw [List.map_map] at hl
  obtain ⟨s, hs, rfl⟩ := List.mem_map.mp hl
  have := List.any_eq_false.mp h s hs
  simpa using this

theorem c6_flatten_ne_nil (chain : ReasoningChain)
    (h : chain.steps.any (fun s => (verify_step s).issues ≠ []) = true) :
    ((chain.steps.map verify_step).map (fun r => r.issues)).flatten ≠ [] := by
  obtain ⟨s, hs, hsi⟩ := List.any_eq_true.mp h
  intro hnil
  rw [List.flatten_eq_nil_iff] at hnil
  have hmem : (verify_step s).issues ∈ (chain.steps.map verify_step).map (fun r => r.issues) := by
    rw [List.map_map]
    exact List.mem_map.mpr ⟨s, hs, rfl⟩
  have := hnil _ hmem
  simp [this] at hsi

theorem c6_confidence (chain : ReasoningChain) (hne : chain.steps ≠ []) :
    (verify_chain chain).confidence =
      (if c6HasIssue chain then (7/10 : ℚ) else 1) *
        ((c6Samples chain).sum / (c6Samples chain).length) := by
  cases hI1 : chain.steps.any (fun s => (verify_step s).issues ≠ []) with
  | true =>
    have hA := c6_flatten_ne_nil chain hI1
    by_cases hI2 : chain.steps.length < chain.plan.sub_problems.length <;>
    cases hI3 : (!strTruthy chain.final_answer ||
        chain.final_answer = some "Unable to determine answer") <;>
    simp [verify_chain, c6HasIssue, c6Samples, c6NoFinal, hI1, hI2, hI3, hA, hne,
      List.map_map, Function.comp_def, mul_comm]
  | false =>
    have hA := c6_flatten_nil chain hI1
    by_cases hI2 : chain.steps.length < chain.plan.sub_problems.length <;>
    cases hI3 : (!strTruthy chain.final_answer ||
        chain.final_answer = some "Unable to determine answer") <;>
    simp [verify_chain, c6HasIssue, c6Samples, c6NoFinal, hI1, hI2, hI3, hA, hne,
      List.map_map, Function.comp_def, mul_comm]

theorem c6_all_not_any (l : List ReasoningStep) :
    decide (∀ a ∈ l, (verify_step a).issues = []) =
      !l.any (fun s => !decide ((verify_step s).issues = [])) := by
  cases hA : l.any (fun s => !decide ((verify_step s).issues = [])) with
  | true =>
    obtain ⟨s, hs, hh⟩ := List.any_eq_true.mp hA
    simp at hh
    have : ¬(∀ a ∈ l, (verify_step a).issues = []) := fun hall => hh (hall s hs)
    simp [this]
  | false =>
    have h := List.any_eq_false.mp hA
    have hall : ∀ a ∈ l, (verify_step a).issues = [] := by
      intro a ha
      have := h a ha
      simpa using this
    simp [hA]
    exact hall

theorem c6_validity (chain : ReasoningChain) :
    (verify_chain chain).is_valid =
      (!c6HasIssue chain && decide ((3/5 : ℚ) < (verify_chain chain).confidence)) := by
  cases hI1 : chain.steps.any (fun s => (verify_step s).issues ≠ []) with
  | true =>
    have hA := c6_flatten_ne_nil chain hI1
    by_cases hI2 : chain.steps.length < chain.plan.sub_problems.length <;>
    cases hI3 : (!strTruthy chain.final_answer ||
        chain.final_answer = some "Unable to determine answer") <;>
    simp [verify_chain, c6HasIssue, c6NoFinal, hI1, hI2, hI3, hA, List.map_map,
      Function.comp_def, c6_all_not_any]
  | false =>
    have hA := c6_flatten_nil chain hI1
    by_cases hI2 : chain.steps.length < chain.plan.sub_problems.length <;>
    cases hI3 : (!strTruthy chain.final_answer ||
        chain.final_answer = some "Unable to determine answer") <;>
    simp [verify_chain, c6HasIssue, c6NoFinal, hI1, hI2, hI3, hA, List.map_map,
      Function.comp_def, c6_all_not_any]

/-- C6: chain verification's overall confidence is the arithmetic mean of the
per-step verification confidences (with one extra 0 sample when the final
answer is absent or the "unable to determine" sentinel), scaled by 7/10
exactly when some issue was flagged (a per-step issue, chain incompleteness,
or a missing final answer — connectivity findings are only suggestions), and
the chain is valid iff no issue was flagged and the resulting confidence
exceeds 3/5. -/
theorem c6_verify_chain_mean (chain : ReasoningChain) (hne : chain.steps ≠ []) :
    (verify_chain chain).confidence =
      (if c6HasIssue chain then (7/10 : ℚ) else 1) *
        ((c6Samples chain).sum / (c6Samples chain).length) ∧
    (verify_chain chain).is_valid =
      (!c6HasIssue chain && decide ((3/5 : ℚ) < (verify_chain chain).confidence)) :=
  ⟨c6_confidence chain hne, c6_validity chain⟩

/-- C6 witness: the one-step chain c6chain has no flagged issue apart from the
incompleteness check, and its verification numbers follow the mean formula. -/
theorem c6_verify_chain_mean_witness :
    c6chain.steps ≠ [] ∧
    ((verify_chain c6chain).confidence =
      (if c6HasIssue c6chain then (7/10 : ℚ) else 1) *
        ((c6Samples c6chain).sum / (c6Samples c6chain).length) ∧
     (verify_chain c6chain).is_valid =
      (!c6HasIssue c6chain && decide ((3/5 : ℚ) < (verify_chain c6chain).confidence))) :=
  ⟨by decide, c6_verify_chain_mean c6chain (by decide)⟩

set_option maxRecDepth 100000 in
/-- C9: on the specification's own work-rate scenario the combined-rate solver
does produce "4 hours" in step 2, but the generic calculation step then
multiplies the two extracted numbers (12 × 6 = 72.0) into step 3, and the
most-recent-first answer synthesis returns "72"; with no options, final
reconciliation leaves "72" unchanged, so the pipeline's final answer is "72",
not the claimed "4 hours". -/
theorem c9_work_rate_overridden :
    (create_plan c9problem none).problem_type = ProblemType.mathematical ∧
    solve_work_rate_problem c9problem = some "4 hours" ∧
    ((execute_plan mathHandler c9problem (create_plan c9problem none) none).steps.map
      (fun s => s.result)).get? 1 = some (some "4 hours") ∧
    (execute_plan mathHandler c9problem (create_plan c9problem none) none).final_answer =
      some "72" ∧
    (solve mathHandler [] c9problem none none).2.answer = "72" ∧
    "72" ≠ "4 hours" := by decide

end AgentMind
